import Mathlib

/-!
Shallow embedding of `spdx_to_mermaid.py` (flox/spdx-visualizer) and proofs
about it.  Pure string-processing functions of the source are translated to
executable Lean definitions; the parsed SPDX document model (the output of the
external `spdx_tools` parser) is embedded as Lean structures whose fields carry
the already-stringified values the Python code reads from the parser's objects.
-/

namespace SpdxToMermaid

/-! ### Python string primitives -/

/-- Worker for Python `str.replace(old, new)` on character lists, scanning left
to right and replacing non-overlapping occurrences.  `fuel` only bounds the
recursion; any `fuel ≥ l.length` computes the replacement of the whole list
(each step consumes at least one character of `l` when `old` is nonempty). -/
def pyReplaceAux (old new : List Char) : Nat → List Char → List Char
  | 0, l => l
  | _ + 1, [] => []
  | fuel + 1, c :: rest =>
    if old.isPrefixOf (c :: rest) then
      new ++ pyReplaceAux old new fuel (List.drop old.length (c :: rest))
    else
      c :: pyReplaceAux old new fuel rest

/-- Python `s.replace(old, new)`: every non-overlapping occurrence of `old` in
`s`, scanned left to right, is replaced by `new`.  An empty `old` (never used
by this program) inserts `new` before every character and at the end, as in
Python. -/
def pyReplace (old new s : String) : String :=
  if old.isEmpty then
    ⟨new.data ++ (s.data.map (fun c => c :: new.data)).flatten⟩
  else
    ⟨pyReplaceAux old.data new.data s.data.length s.data⟩

/-- `sanitize_node_id` (source lines 25-33): convert an SPDX ID to a Mermaid
node ID via `str.replace("SPDXRef-", "").replace("-", "_").replace(".", "_")`.
Non-string inputs (e.g. `SpdxNoAssertion`) are stringified by the caller side
of the embedding, so the argument is already a `String`. -/
def sanitize_node_id (spdx_id : String) : String :=
  pyReplace "." "_" (pyReplace "-" "_" (pyReplace "SPDXRef-" "" spdx_id))

/-- `escape_quotes` (source lines 36-38): `text.replace('"', "'")`. -/
def escape_quotes (text : String) : String :=
  pyReplace "\"" "'" text

/-! ### The element-data dictionaries

`extract_elements_from_document` fills Python dictionaries of heterogeneous
values (strings, booleans, `None`, lists of strings, lists of string-keyed
dictionaries).  `Value` covers exactly those shapes; an element-data dictionary
is an insertion-ordered association list. -/

inductive Value where
  | str (s : String)
  | bool (b : Bool)
  | none
  | strList (l : List String)
  | dictList (l : List (List (String × String)))
deriving DecidableEq

/-- Python truthiness of a stored value: non-empty string, `True`, non-empty
list; `None` is falsy. -/
def Value.truthy : Value → Bool
  | .str s => !s.isEmpty
  | .bool b => b
  | .none => false
  | .strList l => !l.isEmpty
  | .dictList l => !l.isEmpty

/-- Python `repr` of a string, as used when a list is stringified.  (The
program only ever stringifies lists that never reach `str()`; this rendering
matches Python for quote- and backslash-free contents.) -/
def pyReprStr (s : String) : String := "'" ++ s ++ "'"

/-- Python `str()` of a stored value, as an f-string interpolation performs. -/
def Value.pyStr : Value → String
  | .str s => s
  | .bool true => "True"
  | .bool false => "False"
  | .none => "None"
  | .strList l => "[" ++ String.intercalate ", " (l.map pyReprStr) ++ "]"
  | .dictList l =>
    "[" ++ String.intercalate ", "
      (l.map (fun d =>
        "\x7b" ++ String.intercalate ", "
          (d.map (fun kv => pyReprStr kv.1 ++ ": " ++ pyReprStr kv.2)) ++ "\x7d"))
      ++ "]"

/-- One element's flat attribute dictionary (insertion-ordered). -/
abbrev ElementData := List (String × Value)

/-- Dictionary lookup (`d[k]` / `d.get(k)`), first matching key. -/
def dget (d : ElementData) (k : String) : Option Value :=
  match d with
  | [] => Option.none
  | (k', v) :: rest => if k' = k then some v else dget rest k

/-- The value at `k`, with `Value.none` standing in when the key is absent
(the program only reads keys it has checked or that extraction always sets). -/
def valOf (d : ElementData) (k : String) : Value :=
  (dget d k).getD Value.none

/-- Python `k in d and d[k]`: the key is present and its value is truthy. -/
def hasTruthy (d : ElementData) (k : String) : Bool :=
  match dget d k with
  | some v => v.truthy
  | Option.none => false

/-- Python `k in d`: key presence alone, regardless of the value. -/
def hasKey (d : ElementData) (k : String) : Bool :=
  (dget d k).isSome

/-- `inner.get(k, "")` on the string-keyed inner dictionaries (checksums,
external references). -/
def sget (inner : List (String × String)) (k : String) : String :=
  match inner with
  | [] => ""
  | (k', v) :: rest => if k' = k then v else sget rest k

/-! ### `format_node_label` (source lines 102-257)

The Python function appends lines to a list through a fixed sequence of `if`
blocks and joins them with `"\n"`.  Each block below embeds one of those `if`
blocks, in source order. -/

/-- Lines 129-134: type header, with the package purpose when present. -/
def headerLine (element_type : String) (d : ElementData) : String :=
  if hasTruthy d "primaryPackagePurpose" then
    "[" ++ element_type ++ " - " ++ (valOf d "primaryPackagePurpose").pyStr ++ "]"
  else
    "[" ++ element_type ++ "]"

/-- Lines 136-140: name when truthy, else the raw id, quote-escaped. -/
def nameLine (element_id : String) (d : ElementData) : String :=
  if hasTruthy d "name" then
    "Name: " ++ escape_quotes (valOf d "name").pyStr
  else
    "ID: " ++ escape_quotes element_id

/-- Lines 142-147: summary, escaped then truncated to 60. -/
def summaryLines (d : ElementData) : List String :=
  if hasTruthy d "summary" then
    let summary := escape_quotes (valOf d "summary").pyStr
    let summary := if summary.length > 60 then summary.take 57 ++ "..." else summary
    ["Summary: " ++ summary]
  else []

/-- Lines 149-151: version. -/
def versionLines (d : ElementData) : List String :=
  if hasTruthy d "version" then
    ["Version: " ++ escape_quotes (valOf d "version").pyStr]
  else []

/-- Lines 153-155: license concluded. -/
def licenseLines (d : ElementData) : List String :=
  if hasTruthy d "licenseConcluded" then
    ["License: " ++ escape_quotes (valOf d "licenseConcluded").pyStr]
  else []

/-- Lines 157-162: license comments, escaped then truncated to 60. -/
def licenseNoteLines (d : ElementData) : List String :=
  if hasTruthy d "licenseComments" then
    let lic_comment := escape_quotes (valOf d "licenseComments").pyStr
    let lic_comment :=
      if lic_comment.length > 60 then lic_comment.take 57 ++ "..." else lic_comment
    ["License Note: " ++ lic_comment]
  else []

/-- Lines 166-171: download location, escaped then truncated to 50. -/
def downloadLines (d : ElementData) : List String :=
  if hasTruthy d "downloadLocation" then
    let download := escape_quotes (valOf d "downloadLocation").pyStr
    let download := if download.length > 50 then download.take 47 ++ "..." else download
    ["Download: " ++ download]
  else []

/-- Lines 173-175: supplier. -/
def supplierLines (d : ElementData) : List String :=
  if hasTruthy d "supplier" then
    ["Supplier: " ++ escape_quotes (valOf d "supplier").pyStr]
  else []

/-- Lines 177-179: originator. -/
def originatorLines (d : ElementData) : List String :=
  if hasTruthy d "originator" then
    ["Originator: " ++ escape_quotes (valOf d "originator").pyStr]
  else []

/-- Lines 181-183: files analyzed — key presence only, value interpolated
without quote-escaping. -/
def filesAnalyzedLines (d : ElementData) : List String :=
  if hasKey d "filesAnalyzed" then
    ["Files Analyzed: " ++ (valOf d "filesAnalyzed").pyStr]
  else []

/-- Lines 185-187: verification code, interpolated without quote-escaping. -/
def verificationLines (d : ElementData) : List String :=
  if hasTruthy d "verificationCode" then
    ["Verification: " ++ (valOf d "verificationCode").pyStr]
  else []

/-- Lines 189-197: first two checksums, `algo: value[:12]...` — the three dots
are appended unconditionally, and neither part is quote-escaped. -/
def checksumLines (d : ElementData) : List String :=
  if hasTruthy d "checksums" then
    match valOf d "checksums" with
    | .dictList cs =>
      (cs.take 2).map (fun c =>
        sget c "algorithm" ++ ": " ++ (sget c "checksumValue").take 12 ++ "...")
    | _ => []
  else []

/-- Lines 199-204: copyright, escaped then truncated to 40. -/
def copyrightLines (d : ElementData) : List String :=
  if hasTruthy d "copyrightText" then
    let copyright_text := escape_quotes (valOf d "copyrightText").pyStr
    let copyright_text :=
      if copyright_text.length > 40 then copyright_text.take 37 ++ "..." else copyright_text
    ["Copyright: " ++ copyright_text]
  else []

/-- Lines 206-211: comment, escaped then truncated to 50. -/
def commentLines (d : ElementData) : List String :=
  if hasTruthy d "comment" then
    let comment := escape_quotes (valOf d "comment").pyStr
    let comment := if comment.length > 50 then comment.take 47 ++ "..." else comment
    ["Comment: " ++ comment]
  else []

/-- Lines 213-215: homepage. -/
def homepageLines (d : ElementData) : List String :=
  if hasTruthy d "homepage" then
    ["Homepage: " ++ escape_quotes (valOf d "homepage").pyStr]
  else []

/-- Lines 164-215: the whole optional-field block, skipped in compact mode. -/
def optionalLines (d : ElementData) : List String :=
  downloadLines d ++ supplierLines d ++ originatorLines d ++ filesAnalyzedLines d
    ++ verificationLines d ++ checksumLines d ++ copyrightLines d ++ commentLines d
    ++ homepageLines d

/-- Python `", ".join(x)`: joins a list of strings; a plain string is joined
character by character (any other value raises `TypeError` in Python and is
unreachable from extraction output, rendered here as `""`). -/
def joinComma : Value → String
  | .strList l => String.intercalate ", " l
  | .str s => String.intercalate ", " (s.data.map (fun c => String.singleton c))
  | _ => ""

/-- Lines 218-232: document-only fields (created, creators, namespace, data
license).  Creators are joined, truncated to 50, then escaped. -/
def documentLines (d : ElementData) : List String :=
  (if hasTruthy d "created" then
    ["Created: " ++ escape_quotes (valOf d "created").pyStr]
  else [])
  ++ (if hasTruthy d "creators" then
    let creators_str := joinComma (valOf d "creators")
    let creators_str :=
      if creators_str.length > 50 then creators_str.take 47 ++ "..." else creators_str
    ["Creators: " ++ escape_quotes creators_str]
  else [])
  ++ (if hasTruthy d "namespace" then
    let namespace_ := escape_quotes (valOf d "namespace").pyStr
    let namespace_ :=
      if namespace_.length > 50 then namespace_.take 47 ++ "..." else namespace_
    ["Namespace: " ++ namespace_]
  else [])
  ++ (if hasTruthy d "dataLicense" then
    ["Data License: " ++ escape_quotes (valOf d "dataLicense").pyStr]
  else [])

/-- Lines 234-252: package-only fields.  The external-reference type is not
quote-escaped; the locator is truncated to 40 and then escaped. -/
def packageOnlyLines (d : ElementData) (compact exclude_external_refs : Bool) : List String :=
  (if !compact && hasTruthy d "licenseDeclared" then
    ["License Declared: " ++ escape_quotes (valOf d "licenseDeclared").pyStr]
  else [])
  ++ (if !compact && hasTruthy d "packageFileName" then
    let pkg_file := escape_quotes (valOf d "packageFileName").pyStr
    let pkg_file := if pkg_file.length > 50 then pkg_file.take 47 ++ "..." else pkg_file
    ["Package File: " ++ pkg_file]
  else [])
  ++ (if !exclude_external_refs && hasTruthy d "externalRefs" then
    match valOf d "externalRefs" with
    | .dictList refs =>
      let limit := if compact then 1 else 2
      (refs.take limit).map (fun ref =>
        let ref_type := sget ref "referenceType"
        let ref_loc := sget ref "referenceLocator"
        let ref_loc := if ref_loc.length > 40 then ref_loc.take 37 ++ "..." else ref_loc
        ref_type ++ ": " ++ escape_quotes ref_loc)
    | _ => []
  else [])

/-- The ordered label lines of `format_node_label`. -/
def formatNodeLines (element_id : String) (element_data : ElementData)
    (element_type : String) (compact exclude_external_refs : Bool) : List String :=
  [headerLine element_type element_data, nameLine element_id element_data]
    ++ summaryLines element_data ++ versionLines element_data
    ++ licenseLines element_data ++ licenseNoteLines element_data
    ++ (if compact then [] else optionalLines element_data)
    ++ (if element_type = "Document" && !compact then documentLines element_data else [])
    ++ (if element_type = "Package" then
          packageOnlyLines element_data compact exclude_external_refs
        else [])

/-- `format_node_label` (source lines 102-257): the label lines joined with
newline characters. -/
def format_node_label (element_id : String) (element_data : ElementData)
    (element_type : String) (compact exclude_external_refs : Bool) : String :=
  String.intercalate "\n"
    (formatNodeLines element_id element_data element_type compact exclude_external_refs)

/-! ### The parsed SPDX document model

These structures embed the `spdx_tools` objects the program reads.  All
attributes the code probes with `hasattr` exist on the corresponding
dataclasses, so every `hasattr` test in the source is `True` and only the
value conditions remain.  Fields whose Python values are non-string objects
(enums, actors, dates, license expressions) carry the string `str()` would
produce, since that is all the program uses; `Option` is Python's `None`. -/

structure Checksum where
  /-- `str(c.algorithm)`, e.g. `"ChecksumAlgorithm.SHA1"`. -/
  algorithm : String
  value : String
deriving DecidableEq

structure ExternalRef where
  /-- `str(ref.reference_type)`. -/
  reference_type : String
  locator : String
  /-- `str(ref.category)`. -/
  category : String
deriving DecidableEq

structure Package where
  spdx_id : String
  name : String
  version : Option String
  /-- `str(package.download_location)`. -/
  download_location : String
  files_analyzed : Bool
  /-- `str` of the supplier actor; an actor object is truthy whenever present. -/
  supplier : Option String
  originator : Option String
  homepage : Option String
  /-- `str` of the license expression; the source tests `is not None`. -/
  license_concluded : Option String
  license_declared : Option String
  license_comment : Option String
  copyright_text : Option String
  comment : Option String
  summary : Option String
  /-- `str` of the purpose enum; an enum member is truthy whenever present. -/
  primary_package_purpose : Option String
  checksums : List Checksum
  /-- `str(package.verification_code.value)`; the code object is truthy
  whenever present. -/
  verification_code : Option String
  file_name : Option String
  external_references : List ExternalRef
deriving DecidableEq

structure File where
  spdx_id : String
  name : String
  license_concluded : Option String
  copyright_text : Option String
  comment : Option String
  checksums : List Checksum
deriving DecidableEq

structure Snippet where
  spdx_id : String
  name : Option String
  comment : Option String
  license_concluded : Option String
  copyright_text : Option String
deriving DecidableEq

structure CreationInfo where
  /-- The document's own SPDX identifier (never read by this program). -/
  spdx_id : String
  name : String
  spdx_version : String
  document_namespace : String
  /-- `str(doc.creation_info.created)`. -/
  created : String
  /-- `[str(c) for c in doc.creation_info.creators]`. -/
  creators : List String
  data_license : String
deriving DecidableEq

structure Relationship where
  /-- `relationship.spdx_element_id` (stringified when a sentinel object). -/
  spdx_element_id : String
  related_spdx_element_id : String
  /-- `relationship.relationship_type.name`, the short enum name. -/
  relationship_type : String
  comment : Option String
deriving DecidableEq

structure Document where
  creation_info : CreationInfo
  packages : List Package
  files : List File
  snippets : List Snippet
  relationships : List Relationship
deriving DecidableEq

/-! ### `extract_elements_from_document` (source lines 260-400) -/

/-- `x if x else None` on an optional string attribute (string truthiness). -/
def optStrVal (o : Option String) : Value :=
  match o with
  | some s => if s.isEmpty then Value.none else Value.str s
  | Option.none => Value.none

/-- `str(x) if x else None` on an optional object attribute (an object is
truthy whenever present), and `str(x) if x is not None else None`. -/
def optVal (o : Option String) : Value :=
  match o with
  | some s => Value.str s
  | Option.none => Value.none

/-- The document entry (source lines 267-287), stored under the hard-coded
key `"SPDXRef-DOCUMENT"`. -/
def documentData (ci : CreationInfo) : ElementData :=
  [("type", Value.str "Document"),
   ("name", Value.str ci.name),
   ("version", Value.str ci.spdx_version),
   ("namespace", Value.str ci.document_namespace),
   ("created", Value.str ci.created),
   ("creators", Value.strList ci.creators),
   ("dataLicense", Value.str ci.data_license)]

def checksumDicts (cs : List Checksum) : Value :=
  Value.dictList (cs.map (fun c => [("algorithm", c.algorithm), ("checksumValue", c.value)]))

def externalRefDicts (rs : List ExternalRef) : Value :=
  Value.dictList (rs.map (fun r =>
    [("referenceType", r.reference_type), ("referenceLocator", r.locator),
     ("referenceCategory", r.category)]))

/-- A package's flat dictionary (source lines 291-355), keys in source order. -/
def packageData (p : Package) : ElementData :=
  [("type", Value.str "Package"),
   ("name", Value.str p.name),
   ("version", optStrVal p.version),
   ("downloadLocation", Value.str p.download_location),
   ("filesAnalyzed", Value.bool p.files_analyzed),
   ("supplier", optVal p.supplier),
   ("originator", optVal p.originator),
   ("homepage", optStrVal p.homepage),
   ("licenseConcluded", optVal p.license_concluded),
   ("licenseDeclared", optVal p.license_declared),
   ("licenseComments", optStrVal p.license_comment),
   ("copyrightText", optStrVal p.copyright_text),
   ("comment", optStrVal p.comment),
   ("summary", optStrVal p.summary),
   ("primaryPackagePurpose", optVal p.primary_package_purpose),
   ("checksums", checksumDicts p.checksums),
   ("verificationCode", optVal p.verification_code),
   ("packageFileName", optStrVal p.file_name),
   ("externalRefs", externalRefDicts p.external_references)]

/-- A file's flat dictionary (source lines 360-378). -/
def fileData (f : File) : ElementData :=
  [("type", Value.str "File"),
   ("name", Value.str f.name),
   ("licenseConcluded", optVal f.license_concluded),
   ("copyrightText", optStrVal f.copyright_text),
   ("comment", optStrVal f.comment),
   ("checksums", checksumDicts f.checksums)]

/-- A snippet's flat dictionary (source lines 383-397); the name falls back to
the snippet's id when absent or empty. -/
def snippetData (s : Snippet) : ElementData :=
  [("type", Value.str "Snippet"),
   ("name", Value.str (match s.name with
     | some n => if n.isEmpty then s.spdx_id else n
     | Option.none => s.spdx_id)),
   ("comment", optStrVal s.comment),
   ("licenseConcluded", optVal s.license_concluded),
   ("copyrightText", optStrVal s.copyright_text)]

/-- Python `d[k] = v` on an insertion-ordered dictionary: an existing key keeps
its position and gets the new value, a new key is appended. -/
def dictInsert (k : String) (v : ElementData) (d : List (String × ElementData)) :
    List (String × ElementData) :=
  if d.any (fun p => p.1 = k) then
    d.map (fun p => if p.1 = k then (k, v) else p)
  else
    d ++ [(k, v)]

/-- `extract_elements_from_document`: the document entry, then one entry per
package, file and snippet, keyed by SPDX id with dictionary overwrite
semantics. -/
def extract_elements_from_document (doc : Document) : List (String × ElementData) :=
  let elements := [("SPDXRef-DOCUMENT", documentData doc.creation_info)]
  let elements := doc.packages.foldl
    (fun es p => dictInsert p.spdx_id (packageData p) es) elements
  let elements := doc.files.foldl
    (fun es f => dictInsert f.spdx_id (fileData f) es) elements
  let elements := doc.snippets.foldl
    (fun es s => dictInsert s.spdx_id (snippetData s) es) elements
  elements

/-! ### `generate_mermaid_diagram` (source lines 403-502) -/

/-- `v["type"] == "Package"` on an element entry. -/
def isPackageEntry (p : String × ElementData) : Bool :=
  dget p.2 "type" = some (Value.str "Package")

/-- Python `d.update(new)`: insert each entry of `new` in order. -/
def dictUpdate (d new : List (String × ElementData)) : List (String × ElementData) :=
  new.foldl (fun acc p => dictInsert p.1 p.2 acc) d

/-- The package-limiting step (source lines 415-422): when a maximum is given
and exceeded, the non-package entries are kept and the first `m` package
entries are re-inserted (which appends them after the non-package entries). -/
def capPackages (max_packages : Option Nat)
    (elements : List (String × ElementData)) : List (String × ElementData) :=
  match max_packages with
  | Option.none => elements
  | some m =>
    let package_elements := elements.filter isPackageEntry
    if package_elements.length > m then
      let limited_packages := package_elements.take m
      let nonPackage := elements.filter (fun p => !isPackageEntry p)
      dictUpdate nonPackage limited_packages
    else elements

/-- Python `needle in hay` on strings. -/
def strContains (hay needle : String) : Bool :=
  decide (needle.data <:+: hay.data)

/-- The node statement and style statement for one element (source lines
431-470).  An element whose `type` is none of the four known kinds emits
nothing, as in the source's if/elif chain. -/
def nodeStatementLines (element_id : String) (element_data : ElementData)
    (compact exclude_external_refs : Bool) : List String :=
  let node_id := sanitize_node_id element_id
  let element_type := (valOf element_data "type").pyStr
  let label := format_node_label element_id element_data element_type compact
    exclude_external_refs
  if element_type = "Document" then
    ["    " ++ node_id ++ "[\"" ++ label ++ "\"]",
     "    style " ++ node_id ++ " fill:#e1f5ff,stroke:#01579b,stroke-width:3px"]
  else if element_type = "Package" then
    let purposeTruthy := hasTruthy element_data "primaryPackagePurpose"
    let purposeStr := (valOf element_data "primaryPackagePurpose").pyStr
    -- The source's `elif "APPLICATION" in str(purpose)` arm and its `else` arm
    -- emit the same purple style line, so the two collapse into one branch.
    ["    " ++ node_id ++ "[\"" ++ label ++ "\"]",
     if purposeTruthy && strContains purposeStr "SOURCE" then
       "    style " ++ node_id ++ " fill:#fff3e0,stroke:#e65100,stroke-width:2px"
     else
       "    style " ++ node_id ++ " fill:#f3e5f5,stroke:#4a148c,stroke-width:2px"]
  else if element_type = "File" then
    ["    " ++ node_id ++ "[\"" ++ label ++ "\"]",
     "    style " ++ node_id ++ " fill:#e8f5e9,stroke:#1b5e20,stroke-width:2px"]
  else if element_type = "Snippet" then
    ["    " ++ node_id ++ "[\"" ++ label ++ "\"]",
     "    style " ++ node_id ++ " fill:#fff3e0,stroke:#e65100,stroke-width:2px"]
  else []

/-- The edge label (source lines 479-486): the relationship kind's short enum
name, plus the quote-escaped comment on a `<br/>`-separated second line when
the comment is present and non-empty. -/
def edgeLabel (r : Relationship) : String :=
  match r.comment with
  | some c =>
    if c.isEmpty then r.relationship_type
    else r.relationship_type ++ "<br/>" ++ escape_quotes c
  | Option.none => r.relationship_type

/-- One edge statement (source line 490), from the sanitized source id to the
sanitized target id. -/
def edgeLine (r : Relationship) : String :=
  "    " ++ sanitize_node_id r.spdx_element_id ++ " -->|\"" ++ edgeLabel r
    ++ "\"| " ++ sanitize_node_id r.related_spdx_element_id

/-- The static legend block (source lines 493-500). -/
def legendLines : List String :=
  ["",
   "    %% Legend",
   "    legend[\"Legend:<br/>Blue = Document<br/>Purple = Package (APPLICATION)<br/>Orange = Package (SOURCE)<br/>Green = File<br/>Orange = Snippet\"]",
   "    style legend fill:#fafafa,stroke:#666,stroke-width:1px,stroke-dasharray: 5 5"]

/-- The generated diagram as its list of lines: header, node and style
statements for every (possibly capped) element in order, one edge per
relationship in source order, then the legend. -/
def mermaidLines (doc : Document) (compact : Bool) (max_packages : Option Nat)
    (exclude_external_refs : Bool) : List String :=
  let elements := capPackages max_packages (extract_elements_from_document doc)
  ["graph LR"]
    ++ elements.flatMap (fun p => nodeStatementLines p.1 p.2 compact exclude_external_refs)
    ++ doc.relationships.map edgeLine
    ++ legendLines

/-- `generate_mermaid_diagram`: the lines joined with newlines. -/
def generate_mermaid_diagram (doc : Document) (compact : Bool)
    (max_packages : Option Nat) (exclude_external_refs : Bool) : String :=
  String.intercalate "\n" (mermaidLines doc compact max_packages exclude_external_refs)

/-! ### `preprocess_spdx_file` (source lines 41-99)

The regular expression of the source is
`"(\d{4}-\d{2}-\d{2}T\d{2}:\d{2}:\d{2})"(?!Z)`: a quoted ISO timestamp whose
closing quote is not followed by `Z`.  `re.search` reports whether some
position matches; `re.sub` rewrites the non-overlapping matches left to right,
appending `Z` inside the quotes.  The scanner below implements exactly that
pattern (`\d` restricted to the ASCII digits the timestamp format uses). -/

/-- The character classes of `\d{4}-\d{2}-\d{2}T\d{2}:\d{2}:\d{2}`. -/
def tsClasses : List (Char → Bool) :=
  [Char.isDigit, Char.isDigit, Char.isDigit, Char.isDigit, (· = '-'),
   Char.isDigit, Char.isDigit, (· = '-'), Char.isDigit, Char.isDigit,
   (· = 'T'), Char.isDigit, Char.isDigit, (· = ':'), Char.isDigit,
   Char.isDigit, (· = ':'), Char.isDigit, Char.isDigit]

/-- Match a list of character classes against a prefix of `l`, returning the
matched characters and the remainder. -/
def matchClasses : List (Char → Bool) → List Char → Option (List Char × List Char)
  | [], l => some ([], l)
  | _ :: _, [] => Option.none
  | p :: ps, c :: cs =>
    if p c then
      match matchClasses ps cs with
      | some (ts, rest) => some (c :: ts, rest)
      | Option.none => Option.none
    else Option.none

/-- Match the whole pattern at the head of `l`: an opening quote, the
timestamp, a closing quote, and the negative lookahead `(?!Z)`.  Returns the
timestamp characters and the remainder after the closing quote. -/
def matchBareTs (l : List Char) : Option (List Char × List Char) :=
  match l with
  | [] => Option.none
  | c :: rest =>
    if c = '"' then
      match matchClasses tsClasses rest with
      | some (ts, c2 :: rest2) =>
        if c2 = '"' then
          match rest2 with
          | z :: _ => if z = 'Z' then Option.none else some (ts, rest2)
          | [] => some (ts, rest2)
        else Option.none
      | _ => Option.none
    else Option.none

/-- `re.search` of the pattern: does any position of `l` start a match? -/
def searchTs : List Char → Bool
  | [] => false
  | c :: rest => (matchBareTs (c :: rest)).isSome || searchTs rest

/-- `re.sub` of the pattern with replacement `"\1Z"`: rewrite the leftmost
match, then continue after it.  `fuel ≥ l.length` computes the full rewrite
(every match consumes at least one character). -/
def subTsAux : Nat → List Char → List Char
  | 0, l => l
  | _ + 1, [] => []
  | fuel + 1, c :: rest =>
    match matchBareTs (c :: rest) with
    | some (ts, rem) => '"' :: (ts ++ 'Z' :: '"' :: subTsAux fuel rem)
    | Option.none => c :: subTsAux fuel rest

/-- The timestamp rewrite applied to a whole file content. -/
def fixTimestamps (content : String) : String :=
  ⟨subTsAux content.data.length content.data⟩

/-- Python `str.lower()`, character by character (the suffixes this program
compares are ASCII). -/
def pyLower (s : String) : String :=
  ⟨s.data.map Char.toLower⟩

/-- `preprocess_spdx_file`, with the file system abstracted away: the input is
the path's suffix and the file's content; `Option.none` means the original
path is returned (no temporary file), `some c` means a temporary file with
content `c` is created and returned. -/
def preprocess_spdx_file (suffix content : String) : Option String :=
  if pyLower suffix ≠ ".json" then Option.none
  else if searchTs content.data then some (fixTimestamps content)
  else Option.none

/-! ### The temp-file lifecycle of `main` (source lines 541-575)

`main` preprocesses, parses, and unlinks the temporary file — but the unlink
(lines 548-553) sits after `parse_file` inside the same `try` block whose
`except` (line 570) reports and exits, so a parse fault jumps past it.  The
record below tracks exactly that control flow; `parse_ok` abstracts whether
`parse_file` raises. -/

structure MainRun where
  temp_created : Bool
  temp_removed : Bool
  exit_ok : Bool
deriving DecidableEq

def mainFlow (suffix content : String) (parse_ok : Bool) : MainRun :=
  match preprocess_spdx_file suffix content with
  | Option.none =>
    { temp_created := false, temp_removed := false, exit_ok := parse_ok }
  | some _ =>
    if parse_ok then
      { temp_created := true, temp_removed := true, exit_ok := true }
    else
      { temp_created := true, temp_removed := false, exit_ok := false }

/-! ### The uniform truncation rule (spec section 4.3) -/

/-- The truncation the spec describes: over the limit, keep the first
`limit - 3` characters and append three dots. -/
def truncateTo (limit : Nat) (s : String) : String :=
  if s.length > limit then s.take (limit - 3) ++ "..." else s

/-! ### Concrete sample inputs used by the verification -/

def exCI : CreationInfo :=
  { spdx_id := "SPDXRef-DOCUMENT", name := "doc", spdx_version := "SPDX-2.3",
    document_namespace := "https://example.com/ns", created := "2024-01-01 00:00:00+00:00",
    creators := ["Tool: gen"], data_license := "CC0-1.0" }

def exPkg1 : Package :=
  { spdx_id := "SPDXRef-Pkg1", name := "p1", version := some "1.0",
    download_location := "NOASSERTION", files_analyzed := false, supplier := Option.none,
    originator := Option.none, homepage := Option.none, license_concluded := some "MIT",
    license_declared := Option.none, license_comment := Option.none,
    copyright_text := Option.none, comment := Option.none, summary := Option.none,
    primary_package_purpose := some "PackagePurpose.SOURCE",
    checksums := [⟨"SHA1", "abc"⟩], verification_code := Option.none,
    file_name := Option.none, external_references := [] }

def exPkg2 : Package :=
  { exPkg1 with
      spdx_id := "SPDXRef-Pkg2", name := "p2",
      primary_package_purpose := Option.none, checksums := [] }

def exPkgNoVer : Package :=
  { exPkg1 with
      spdx_id := "SPDXRef-Pkg3", name := "p3", version := Option.none,
      license_concluded := Option.none, primary_package_purpose := Option.none,
      checksums := [] }

def exFile1 : File :=
  { spdx_id := "SPDXRef-File1", name := "f.c", license_concluded := Option.none,
    copyright_text := Option.none, comment := Option.none, checksums := [] }

def exRelC1 : Relationship :=
  ⟨"SPDXRef-Doc", "SPDXRef-Pkg1", "DESCRIBES", some "a \"quoted\" note"⟩

/-- A relationship naming the identifier `DOCUMENT`, which is distinct from
`SPDXRef-DOCUMENT` yet sanitizes to the emitted document node id. -/
def exRel10 : Relationship :=
  ⟨"DOCUMENT", "SPDXRef-Pkg1", "DESCRIBES", Option.none⟩

/-- Two packages, one file, one relationship: capping to one package moves the
retained package after the file. -/
def exDocCap : Document :=
  { creation_info := exCI, packages := [exPkg1, exPkg2], files := [exFile1],
    snippets := [], relationships := [exRelC1] }

def exDocC1 : Document :=
  { creation_info := exCI, packages := [exPkg1], files := [], snippets := [],
    relationships := [exRelC1] }

/-- An element dictionary with a three-character checksum value. -/
def exDictC3 : ElementData :=
  [("type", Value.str "File"),
   ("checksums", Value.dictList [[("algorithm", "SHA1"), ("checksumValue", "abc")]])]

/-- An element dictionary whose package purpose contains a double quote. -/
def exDictC4 : ElementData :=
  [("primaryPackagePurpose", Value.str "HAS\"QUOTE")]

/-! ## Theorems -/

/-! ### Lemmas about `pyReplaceAux` -/

theorem pyReplaceAux_mem (old new : List Char) (c : Char) :
    ∀ (fuel : Nat) (l : List Char), c ∈ pyReplaceAux old new fuel l → c ∈ new ∨ c ∈ l := by
  intro fuel
  induction fuel with
  | zero => intro l h; exact Or.inr h
  | succ n ih =>
    intro l h
    cases l with
    | nil => simp [pyReplaceAux] at h
    | cons a as =>
      by_cases hp : old.isPrefixOf (a :: as)
      · rw [pyReplaceAux, if_pos hp] at h
        rcases List.mem_append.mp h with h' | h'
        · exact Or.inl h'
        · rcases ih _ h' with h'' | h''
          · exact Or.inl h''
          · exact Or.inr (List.mem_of_mem_drop h'')
      · rw [pyReplaceAux, if_neg hp] at h
        rcases List.mem_cons.mp h with h' | h'
        · exact Or.inr (h' ▸ List.mem_cons_self a as)
        · rcases ih _ h' with h'' | h''
          · exact Or.inl h''
          · exact Or.inr (List.mem_cons_of_mem a h'')

/-- Replacing the single character `d` leaves no `d` in the output, provided
the replacement `new` has none and the fuel suffices. -/
theorem pyReplaceAux_single_not_mem (d : Char) (new : List Char) (hnew : d ∉ new) :
    ∀ (fuel : Nat) (l : List Char), l.length ≤ fuel → d ∉ pyReplaceAux [d] new fuel l := by
  intro fuel
  induction fuel with
  | zero =>
    intro l hl
    rw [Nat.le_zero, List.length_eq_zero] at hl
    subst hl
    simp [pyReplaceAux]
  | succ n ih =>
    intro l hl
    cases l with
    | nil => simp [pyReplaceAux]
    | cons a as =>
      by_cases ha : a = d
      · subst ha
        have hp : [a].isPrefixOf (a :: as) = true := by
          simp [List.isPrefixOf]
        rw [pyReplaceAux, if_pos hp]
        intro hmem
        rcases List.mem_append.mp hmem with h' | h'
        · exact hnew h'
        · have : as.length ≤ n := by simpa using hl
          exact ih (List.drop 1 (a :: as)) (by simpa using this) h'
      · have hp : [d].isPrefixOf (a :: as) = false := by
          simp [List.isPrefixOf]
          intro h
          exact absurd h.symm ha
        rw [pyReplaceAux, if_neg (by simp [hp])]
        intro hmem
        rcases List.mem_cons.mp hmem with h' | h'
        · exact ha h'.symm
        · have : as.length ≤ n := by simpa using hl
          exact ih as this h'

/-- If some character of `old` does not occur in `l`, the replacement is the
identity on `l`. -/
theorem pyReplaceAux_id (old new : List Char) (d : Char) (hd : d ∈ old) :
    ∀ (fuel : Nat) (l : List Char), d ∉ l → pyReplaceAux old new fuel l = l := by
  intro fuel
  induction fuel with
  | zero => intro l _; rfl
  | succ n ih =>
    intro l hdl
    cases l with
    | nil => rfl
    | cons a as =>
      have hp : ¬ old.isPrefixOf (a :: as) = true := by
        intro h
        have hpre : old <+: (a :: as) := List.isPrefixOf_iff_prefix.mp h
        exact hdl (hpre.subset hd)
      rw [pyReplaceAux, if_neg hp]
      have : d ∉ as := fun h => hdl (List.mem_cons_of_mem a h)
      rw [ih as this]

theorem pyReplace_data_mem (old new s : String) (hold : ¬ old.isEmpty) (c : Char)
    (h : c ∈ (pyReplace old new s).data) : c ∈ new.data ∨ c ∈ s.data := by
  rw [pyReplace, if_neg (by simpa using hold)] at h
  exact pyReplaceAux_mem old.data new.data c s.data.length s.data h

theorem pyReplace_single_not_mem (d : Char) (new s : String) (hnew : d ∉ new.data) :
    d ∉ (pyReplace ⟨[d]⟩ new s).data := by
  have hold : ¬ (⟨[d]⟩ : String).isEmpty := by
    simp [String.isEmpty_iff, String.ext_iff]
  rw [pyReplace, if_neg (by simpa using hold)]
  exact pyReplaceAux_single_not_mem d new.data hnew s.data.length s.data (Nat.le_refl _)

theorem pyReplace_id (old new s : String) (hold : ¬ old.isEmpty) (d : Char)
    (hd : d ∈ old.data) (hds : d ∉ s.data) : pyReplace old new s = s := by
  rw [pyReplace, if_neg (by simpa using hold)]
  rw [pyReplaceAux_id old.data new.data d hd s.data.length s.data hds]

/-! ### Properties of the sanitizer -/

theorem dash_mem_spdxref : '-' ∈ ("SPDXRef-" : String).data := by decide

theorem sanitize_no_dash (s : String) : '-' ∉ (sanitize_node_id s).data := by
  intro h
  rw [sanitize_node_id] at h
  have h2 := pyReplace_data_mem "." "_" _ (by decide) '-' h
  rcases h2 with h2 | h2
  · revert h2; decide
  · exact pyReplace_single_not_mem '-' "_" _ (by decide) (by exact h2)

theorem sanitize_no_dot (s : String) : '.' ∉ (sanitize_node_id s).data := by
  intro h
  rw [sanitize_node_id] at h
  exact pyReplace_single_not_mem '.' "_" _ (by decide) (by exact h)

theorem sanitize_idem (s : String) :
    sanitize_node_id (sanitize_node_id s) = sanitize_node_id s := by
  have hdash := sanitize_no_dash s
  have hdot := sanitize_no_dot s
  rw [sanitize_node_id]
  rw [pyReplace_id "SPDXRef-" "" _ (by decide) '-' (by decide) hdash]
  rw [pyReplace_id "-" "_" _ (by decide) '-' (by decide) hdash]
  rw [pyReplace_id "." "_" _ (by decide) '.' (by decide) hdot]

theorem sanitize_no_prefix_occurrence (s : String) :
    ¬ ("SPDXRef-" : String).data <:+: (sanitize_node_id s).data := by
  intro h
  exact sanitize_no_dash s (h.subset dash_mem_spdxref)

/-- C2: the identifier sanitizer is deterministic (it is a function) and
idempotent on its own output; its output never contains an occurrence of
`SPDXRef-`, a `-`, or a `.`; and it maps `SPDXRef-my-package` to `my_package`
and `SPDXRef-foo.bar` to `foo_bar`. -/
theorem C2_sanitize_idempotent_and_clean (s : String) :
    sanitize_node_id (sanitize_node_id s) = sanitize_node_id s ∧
    ¬ ("SPDXRef-" : String).data <:+: (sanitize_node_id s).data ∧
    '-' ∉ (sanitize_node_id s).data ∧
    '.' ∉ (sanitize_node_id s).data ∧
    sanitize_node_id "SPDXRef-my-package" = "my_package" ∧
    sanitize_node_id "SPDXRef-foo.bar" = "foo_bar" :=
  ⟨sanitize_idem s, sanitize_no_prefix_occurrence s, sanitize_no_dash s,
   sanitize_no_dot s, by decide, by decide⟩



/-! ### The timestamp pre-patch (claim C7) -/

theorem subTsAux_nil (fuel : Nat) : subTsAux fuel [] = [] := by
  cases fuel <;> rfl

theorem matchClasses_append (r : List Char) :
    ∀ (ps : List (Char → Bool)) (l m rest : List Char),
      matchClasses ps l = some (m, rest) →
      matchClasses ps (l ++ r) = some (m, rest ++ r) := by
  intro ps
  induction ps with
  | nil =>
    intro l m rest h
    simp [matchClasses] at h ⊢
    exact ⟨h.1, by rw [h.2]⟩
  | cons p ps ih =>
    intro l m rest h
    cases l with
    | nil => simp [matchClasses] at h
    | cons c cs =>
      by_cases hpc : p c
      · rw [List.cons_append]
        rw [matchClasses, if_pos hpc] at h ⊢
        cases hm : matchClasses ps cs with
        | none => rw [hm] at h; simp at h
        | some pr =>
          obtain ⟨ts0, rest0⟩ := pr
          rw [hm] at h
          simp at h
          rw [ih cs ts0 rest0 hm]
          simp [h.1, h.2]
      · rw [matchClasses, if_neg hpc] at h
        simp at h

theorem matchClasses_sat :
    ∀ (ps : List (Char → Bool)) (l m rest : List Char),
      matchClasses ps l = some (m, rest) → ∀ c ∈ m, ∃ p ∈ ps, p c = true := by
  intro ps
  induction ps with
  | nil =>
    intro l m rest h c hc
    simp [matchClasses] at h
    rw [h.1] at hc
    simp at hc
  | cons p ps ih =>
    intro l m rest h c hc
    cases l with
    | nil => simp [matchClasses] at h
    | cons a as =>
      by_cases hpa : p a
      · rw [matchClasses, if_pos hpa] at h
        cases hm : matchClasses ps as with
        | none => rw [hm] at h; simp at h
        | some pr =>
          obtain ⟨ts0, rest0⟩ := pr
          rw [hm] at h
          simp at h
          rw [← h.1] at hc
          rcases List.mem_cons.mp hc with hc' | hc'
          · exact ⟨p, List.mem_cons_self _ _, hc' ▸ hpa⟩
          · obtain ⟨q, hq, hqc⟩ := ih as ts0 rest0 hm c hc'
            exact ⟨q, List.mem_cons_of_mem p hq, hqc⟩
      · rw [matchClasses, if_neg hpa] at h
        simp at h

theorem tsClasses_no_quote : ∀ p ∈ tsClasses, p '"' = false := by decide

/-- A well-formed timestamp contains no quote character. -/
theorem ts_no_quote (ts : String)
    (hts : matchClasses tsClasses ts.data = some (ts.data, [])) : '"' ∉ ts.data := by
  intro hq
  obtain ⟨p, hp, hpc⟩ := matchClasses_sat tsClasses ts.data ts.data [] hts '"' hq
  rw [tsClasses_no_quote p hp] at hpc
  exact Bool.false_ne_true hpc

theorem matchBareTs_ne_quote (c : Char) (rest : List Char) (hc : ¬ c = '"') :
    matchBareTs (c :: rest) = Option.none := by
  simp [matchBareTs, hc]

/-- No match starts inside a quote-free region followed by `Z"`. -/
theorem searchTs_no_quote_ZQuote (l : List Char) (hl : '"' ∉ l) :
    searchTs (l ++ ['Z', '"']) = false := by
  induction l with
  | nil => decide
  | cons c cs ih =>
    have hc : ¬ c = '"' := fun h => hl (h ▸ List.mem_cons_self c cs)
    have hcs : '"' ∉ cs := fun h => hl (List.mem_cons_of_mem c h)
    rw [List.cons_append, searchTs, matchBareTs_ne_quote c _ hc, ih hcs]
    rfl

/-- Matching the full bare pattern at the head of `"TS" ++ suffix`. -/
theorem matchBareTs_quoted (ts : String) (suffix : List Char)
    (hts : matchClasses tsClasses ts.data = some (ts.data, [])) :
    matchBareTs ('"' :: (ts.data ++ '"' :: suffix))
      = (match suffix with
         | 'Z' :: _ => Option.none
         | _ => some (ts.data, suffix)) := by
  have happ := matchClasses_append ('"' :: suffix) tsClasses ts.data ts.data [] hts
  simp at happ
  rw [matchBareTs]
  simp [happ]
  cases suffix with
  | nil => rfl
  | cons z zs =>
    by_cases hz : z = 'Z'
    · subst hz; rfl
    · simp [hz]


/-- `preprocess_spdx_file` on a `.json` path reduces to the timestamp scan. -/
theorem preprocess_json (content : String) :
    preprocess_spdx_file ".json" content
      = if searchTs content.data then some (fixTimestamps content) else Option.none := by
  rw [preprocess_spdx_file, if_neg (by decide)]

/-- C7: the pre-parse patch step applies only to `.json` inputs; it leaves
inputs without a bare quoted timestamp untouched (original path, no temporary
file); when a bare timestamp is present it produces a temporary file with the
rewrite applied; a lone well-formed quoted timestamp gains a `Z`, and one that
already has the `Z` is left alone — in particular for `2025-11-27T15:17:19`. -/
theorem C7_preprocess_timestamp_patch (suffix content ts : String)
    (hts : matchClasses tsClasses ts.data = some (ts.data, [])) :
    (pyLower suffix ≠ ".json" → preprocess_spdx_file suffix content = Option.none) ∧
    (searchTs content.data = false → preprocess_spdx_file ".json" content = Option.none) ∧
    (searchTs content.data = true →
      preprocess_spdx_file ".json" content = some (fixTimestamps content)) ∧
    preprocess_spdx_file ".json" ("\"" ++ ts ++ "\"") = some ("\"" ++ ts ++ "Z\"") ∧
    preprocess_spdx_file ".json" ("\"" ++ ts ++ "Z\"") = Option.none ∧
    preprocess_spdx_file ".json" "\x7b\"created\": \"2025-11-27T15:17:19\"\x7d"
      = some "\x7b\"created\": \"2025-11-27T15:17:19Z\"\x7d" ∧
    preprocess_spdx_file ".json" "\x7b\"created\": \"2025-11-27T15:17:19Z\"\x7d"
      = Option.none ∧
    preprocess_spdx_file ".txt" "\x7b\"created\": \"2025-11-27T15:17:19\"\x7d"
      = Option.none := by
  refine ⟨?_, ?_, ?_, ?_, ?_, by decide, by decide, by decide⟩
  · intro h
    rw [preprocess_spdx_file, if_pos h]
  · intro h
    rw [preprocess_json, h]
    rfl
  · intro h
    rw [preprocess_json, h]
    rfl
  · have hdata : ("\"" ++ ts ++ "\"").data = '"' :: (ts.data ++ '"' :: []) := by
      simp [String.data_append]
    have hmatch := matchBareTs_quoted ts [] hts
    simp at hmatch
    rw [preprocess_json, hdata]
    have hsearch : searchTs ('"' :: (ts.data ++ '"' :: [])) = true := by
      rw [searchTs, hmatch]
      rfl
    rw [hsearch, if_pos rfl]
    have hfix : subTsAux ('"' :: (ts.data ++ '"' :: [])).length
        ('"' :: (ts.data ++ '"' :: [])) = '"' :: (ts.data ++ 'Z' :: '"' :: []) := by
      rw [List.length_cons, subTsAux, hmatch]
      simp [subTsAux_nil]
    apply congrArg some
    apply String.ext_iff.mpr
    rw [fixTimestamps]
    show subTsAux ("\"" ++ ts ++ "\"").data.length ("\"" ++ ts ++ "\"").data = _
    rw [hdata, hfix]
    simp [String.data_append]
  · have hdata : ("\"" ++ ts ++ "Z\"").data = '"' :: (ts.data ++ 'Z' :: '"' :: []) := by
      simp [String.data_append]
    have happ := matchClasses_append ('Z' :: '"' :: []) tsClasses ts.data ts.data [] hts
    simp at happ
    have hm2 : matchBareTs ('"' :: (ts.data ++ 'Z' :: '"' :: [])) = Option.none := by
      rw [matchBareTs]
      simp [happ]
    rw [preprocess_json, hdata]
    have hsearch : searchTs ('"' :: (ts.data ++ 'Z' :: '"' :: [])) = false := by
      rw [searchTs, hm2]
      have := searchTs_no_quote_ZQuote ts.data (ts_no_quote ts hts)
      simpa using this
    rw [hsearch, if_neg (by simp)]

/-- Closed instance of C7 at the concrete timestamp of the spec. -/
theorem C7_preprocess_timestamp_patch_witness :
    preprocess_spdx_file ".json" ("\"" ++ "2025-11-27T15:17:19" ++ "\"")
      = some ("\"" ++ "2025-11-27T15:17:19" ++ "Z\"") :=
  (C7_preprocess_timestamp_patch ".json" "" "2025-11-27T15:17:19" (by decide)).2.2.2.1

/-- C8: when the pre-parse patch creates a temporary file and parsing then
fails, `main`'s unlink (placed after `parse_file` inside the `try` block) never
runs: the temporary file is created but not removed.  On a successful parse it
is removed.  The model evaluates the flow at a JSON input that needs the
timestamp patch. -/
theorem C8_temp_file_leak_on_parse_failure :
    (preprocess_spdx_file ".json" "\x7b\"created\": \"2025-11-27T15:17:19\"").isSome
      = true ∧
    mainFlow ".json" "\x7b\"created\": \"2025-11-27T15:17:19\"" false
      = { temp_created := true, temp_removed := false, exit_ok := false } ∧
    mainFlow ".json" "\x7b\"created\": \"2025-11-27T15:17:19\"" true
      = { temp_created := true, temp_removed := true, exit_ok := true } := by
  decide


/-! ### Relationship edges (claim C1) -/

/-- The edge label always starts with the relationship kind's short name, and
contains the quote-escaped comment whenever one is present and non-empty. -/
theorem edgeLabel_structure (r : Relationship) :
    (∃ t, edgeLabel r = r.relationship_type ++ t) ∧
    (∀ c, r.comment = some c → c.isEmpty = false →
      (escape_quotes c).data <:+: (edgeLabel r).data) := by
  constructor
  · cases hc : r.comment with
    | none => exact ⟨"", by simp [edgeLabel, hc]⟩
    | some c =>
      by_cases hce : c.isEmpty
      · exact ⟨"", by simp [edgeLabel, hc, hce]⟩
      · exact ⟨"<br/>" ++ escape_quotes c, by simp [edgeLabel, hc, hce, String.append_assoc]⟩
  · intro c hc hne
    rw [edgeLabel, hc]
    simp only [hne, Bool.false_eq_true, if_false]
    rw [show (r.relationship_type ++ "<br/>" ++ escape_quotes c).data
        = (r.relationship_type ++ "<br/>").data ++ (escape_quotes c).data from
      String.data_append _ _]
    exact (List.suffix_append _ _).isInfix

/-- C1: every relationship of the document produces exactly one edge statement
— the edge block of the generated lines is the relationship list mapped to
edge statements, in source order — directed from the sanitized source id to
the sanitized target id with no reversal, labeled with the relationship kind's
short enum name, and carrying the quote-escaped comment in the label whenever
the comment is present and non-empty.  No condition on the endpoints resolving
to emitted nodes is involved: the statement holds for every document. -/
theorem C1_relationship_edges (doc : Document) (compact exclude_external_refs : Bool)
    (max_packages : Option Nat) (k : Nat) (hk : k < doc.relationships.length) :
    (∃ pre, mermaidLines doc compact max_packages exclude_external_refs
        = pre ++ doc.relationships.map edgeLine ++ legendLines) ∧
    (doc.relationships.map edgeLine).length = doc.relationships.length ∧
    (doc.relationships.map edgeLine).get ⟨k, by simpa using hk⟩
      = edgeLine (doc.relationships.get ⟨k, hk⟩) ∧
    edgeLine (doc.relationships.get ⟨k, hk⟩)
      = "    " ++ sanitize_node_id (doc.relationships.get ⟨k, hk⟩).spdx_element_id
        ++ " -->|\"" ++ edgeLabel (doc.relationships.get ⟨k, hk⟩) ++ "\"| "
        ++ sanitize_node_id (doc.relationships.get ⟨k, hk⟩).related_spdx_element_id ∧
    (∃ t, edgeLabel (doc.relationships.get ⟨k, hk⟩)
        = (doc.relationships.get ⟨k, hk⟩).relationship_type ++ t) ∧
    (∀ c, (doc.relationships.get ⟨k, hk⟩).comment = some c → c.isEmpty = false →
      (escape_quotes c).data <:+: (edgeLabel (doc.relationships.get ⟨k, hk⟩)).data) := by
  refine ⟨⟨["graph LR"] ++ (capPackages max_packages
      (extract_elements_from_document doc)).flatMap
      (fun p => nodeStatementLines p.1 p.2 compact exclude_external_refs), ?_⟩,
    List.length_map _ _, by simp, rfl,
    (edgeLabel_structure _).1, (edgeLabel_structure _).2⟩
  rw [mermaidLines]

/-- Closed instance of C1 at a one-relationship document. -/
theorem C1_relationship_edges_witness :
    (exDocC1.relationships.map edgeLine).length = exDocC1.relationships.length :=
  (C1_relationship_edges exDocC1 false false Option.none 0 (by decide)).2.1


/-! ### Package capping (claim C5) -/

theorem dictInsert_of_not_mem (k : String) (v : ElementData)
    (d : List (String × ElementData)) (h : k ∉ d.map Prod.fst) :
    dictInsert k v d = d ++ [(k, v)] := by
  rw [dictInsert, if_neg]
  simp only [List.any_eq_true, decide_eq_true_eq, not_exists]
  intro p hp
  exact h (List.mem_map.mpr ⟨p, hp.1, hp.2⟩)

theorem dictUpdate_append (d new : List (String × ElementData))
    (hdisj : ∀ q ∈ new, q.1 ∉ d.map Prod.fst) (hnd : (new.map Prod.fst).Nodup) :
    dictUpdate d new = d ++ new := by
  induction new generalizing d with
  | nil => simp [dictUpdate]
  | cons q qs ih =>
    obtain ⟨k, v⟩ := q
    have h1 : dictInsert k v d = d ++ [(k, v)] :=
      dictInsert_of_not_mem k v d (hdisj (k, v) (List.mem_cons_self _ _))
    have hstep : dictUpdate d ((k, v) :: qs) = dictUpdate (d ++ [(k, v)]) qs := by
      rw [dictUpdate, List.foldl_cons, h1]
      rfl
    rw [hstep, ih (d ++ [(k, v)]) ?fresh ?nd]
    · simp
    case fresh =>
      intro q' hq'
      simp only [List.map_append, List.mem_append, not_or]
      constructor
      · exact hdisj q' (List.mem_cons_of_mem _ hq')
      · simp only [List.map_cons, List.map_nil, List.mem_singleton]
        intro he
        have : k ∈ qs.map Prod.fst := List.mem_map.mpr ⟨q', hq', he⟩
        rw [List.map_cons] at hnd
        exact (List.nodup_cons.mp hnd).1 this
    case nd =>
      rw [List.map_cons] at hnd
      exact (List.nodup_cons.mp hnd).2

/-- C5: capping to `N` keeps every non-package element unchanged (same
entries, same relative order) and keeps exactly `min N total` packages,
namely the first `min N total` packages in original order. -/
theorem C5_cap_packages (elements : List (String × ElementData))
    (hnd : (elements.map Prod.fst).Nodup) (N : Nat) :
    (capPackages (some N) elements).filter (fun p => !isPackageEntry p)
        = elements.filter (fun p => !isPackageEntry p) ∧
    (capPackages (some N) elements).filter isPackageEntry
        = (elements.filter isPackageEntry).take N ∧
    ((capPackages (some N) elements).filter isPackageEntry).length
        = min N (elements.filter isPackageEntry).length := by
  by_cases hgt : (elements.filter isPackageEntry).length > N
  · have hcap : capPackages (some N) elements
        = elements.filter (fun p => !isPackageEntry p)
          ++ (elements.filter isPackageEntry).take N := by
      simp only [capPackages]
      rw [if_pos hgt]
      apply dictUpdate_append
      · intro q hq hmem
        have hq1 : q ∈ elements.filter isPackageEntry := List.mem_of_mem_take hq
        have hq2 := List.mem_filter.mp hq1
        obtain ⟨q', hq', he⟩ := List.mem_map.mp hmem
        have hq'2 := List.mem_filter.mp hq'
        have heq : q' = q := List.inj_on_of_nodup_map hnd hq'2.1 hq2.1 (by rw [he])
        rw [heq, hq2.2] at hq'2
        simp at hq'2
      · have hsub : List.Sublist ((elements.filter isPackageEntry).take N) elements :=
          (List.take_sublist _ _).trans (List.filter_sublist _)
        exact hnd.sublist (hsub.map Prod.fst)
    have e3 : (elements.filter (fun p => !isPackageEntry p)).filter isPackageEntry = [] := by
      apply List.filter_eq_nil_iff.mpr
      intro p hp
      have := (List.mem_filter.mp hp).2
      simpa using this
    have e4 : ((elements.filter isPackageEntry).take N).filter isPackageEntry
        = (elements.filter isPackageEntry).take N := by
      apply List.filter_eq_self.mpr
      intro p hp
      exact (List.mem_filter.mp (List.mem_of_mem_take hp)).2
    have e1 : (elements.filter (fun p => !isPackageEntry p)).filter
        (fun p => !isPackageEntry p) = elements.filter (fun p => !isPackageEntry p) := by
      apply List.filter_eq_self.mpr
      intro p hp
      exact (List.mem_filter.mp hp).2
    have e2 : ((elements.filter isPackageEntry).take N).filter
        (fun p => !isPackageEntry p) = [] := by
      apply List.filter_eq_nil_iff.mpr
      intro p hp
      have := (List.mem_filter.mp (List.mem_of_mem_take hp)).2
      simpa using this
    have hfilter2 : (capPackages (some N) elements).filter isPackageEntry
        = (elements.filter isPackageEntry).take N := by
      rw [hcap, List.filter_append, e3, e4, List.nil_append]
    refine ⟨?_, hfilter2, ?_⟩
    · rw [hcap, List.filter_append, e1, e2, List.append_nil]
    · rw [hfilter2, List.length_take]
  · have hle : (elements.filter isPackageEntry).length ≤ N := Nat.le_of_not_lt hgt
    have hcap : capPackages (some N) elements = elements := by
      simp only [capPackages]
      rw [if_neg hgt]
    refine ⟨by rw [hcap], ?_, ?_⟩
    · rw [hcap, List.take_of_length_le hle]
    · rw [hcap]
      exact (Nat.min_eq_right hle).symm

/-- Closed instance of C5 at a two-package document capped to one package. -/
theorem C5_cap_packages_witness :
    ((capPackages (some 1) (extract_elements_from_document exDocCap)).filter
        isPackageEntry).length
      = min 1 ((extract_elements_from_document exDocCap).filter isPackageEntry).length :=
  (C5_cap_packages (extract_elements_from_document exDocCap) (by decide) 1).2.2


/-! ### Node emission order (claim C6) -/

theorem isPackageEntry_package (k : String) (p : Package) :
    isPackageEntry (k, packageData p) = true := rfl

theorem isPackageEntry_document (k : String) (ci : CreationInfo) :
    isPackageEntry (k, documentData ci) = false := rfl

theorem isPackageEntry_file (k : String) (f : File) :
    isPackageEntry (k, fileData f) = false := rfl

theorem isPackageEntry_snippet (k : String) (s : Snippet) :
    isPackageEntry (k, snippetData s) = false := rfl

theorem foldl_dictInsert_eq_append {α : Type} (key : α → String) (val : α → ElementData) :
    ∀ (xs : List α) (init : List (String × ElementData)),
      (∀ x ∈ xs, key x ∉ init.map Prod.fst) → (xs.map key).Nodup →
      xs.foldl (fun es x => dictInsert (key x) (val x) es) init
        = init ++ xs.map (fun x => (key x, val x)) := by
  intro xs
  induction xs with
  | nil =>
    intro init _ _
    simp
  | cons x xs ih =>
    intro init hfresh hnd
    rw [List.foldl_cons,
      dictInsert_of_not_mem _ _ _ (hfresh x (List.mem_cons_self _ _))]
    rw [List.map_cons] at hnd
    have hnd' := List.nodup_cons.mp hnd
    rw [ih (init ++ [(key x, val x)]) ?fresh hnd'.2]
    · simp
    case fresh =>
      intro y hy
      simp only [List.map_append, List.mem_append, not_or]
      refine ⟨hfresh y (List.mem_cons_of_mem _ hy), ?_⟩
      simp only [List.map_cons, List.map_nil, List.mem_singleton]
      intro he
      exact hnd'.1 (List.mem_map.mpr ⟨y, hy, he⟩)

/-- With pairwise-distinct SPDX ids, extraction is the document entry followed
by the package, file and snippet entries in source order. -/
theorem extract_eq_append (doc : Document)
    (hnd : ("SPDXRef-DOCUMENT" :: (doc.packages.map Package.spdx_id
      ++ doc.files.map File.spdx_id ++ doc.snippets.map Snippet.spdx_id)).Nodup) :
    extract_elements_from_document doc
      = ("SPDXRef-DOCUMENT", documentData doc.creation_info)
        :: (doc.packages.map (fun p => (p.spdx_id, packageData p))
          ++ doc.files.map (fun f => (f.spdx_id, fileData f))
          ++ doc.snippets.map (fun s => (s.spdx_id, snippetData s))) := by
  obtain ⟨hdoc, hrest⟩ := List.nodup_cons.mp hnd
  obtain ⟨hpf, hsn, hdisj1⟩ := List.nodup_append.mp hrest
  obtain ⟨hpk, hfl, hdisj2⟩ := List.nodup_append.mp hpf
  simp only [extract_elements_from_document]
  rw [foldl_dictInsert_eq_append Package.spdx_id packageData doc.packages _ ?pfresh hpk]
  rw [foldl_dictInsert_eq_append File.spdx_id fileData doc.files _ ?ffresh hfl]
  rw [foldl_dictInsert_eq_append Snippet.spdx_id snippetData doc.snippets _ ?sfresh hsn]
  · simp
  case pfresh =>
    intro x hx
    simp only [List.map_cons, List.map_nil, List.mem_singleton]
    intro he
    exact hdoc (by
      refine List.mem_append.mpr (Or.inl ?_)
      refine List.mem_append.mpr (Or.inl ?_)
      exact he ▸ List.mem_map.mpr ⟨x, hx, rfl⟩)
  case ffresh =>
    intro x hx
    simp only [List.map_append, List.map_cons, List.map_nil, List.map_map]
    simp only [List.mem_append, List.mem_singleton, not_or]
    constructor
    · intro he
      exact hdoc (by
        refine List.mem_append.mpr (Or.inl ?_)
        refine List.mem_append.mpr (Or.inr ?_)
        exact he ▸ List.mem_map.mpr ⟨x, hx, rfl⟩)
    · intro hmem
      have : x.spdx_id ∈ doc.packages.map Package.spdx_id := by
        simpa using hmem
      exact hdisj2 this (List.mem_map.mpr ⟨x, hx, rfl⟩)
  case sfresh =>
    intro x hx
    simp only [List.map_append, List.map_cons, List.map_nil, List.map_map]
    simp only [List.mem_append, List.mem_singleton, not_or]
    refine ⟨⟨?_, ?_⟩, ?_⟩
    · intro he
      exact hdoc (by
        refine List.mem_append.mpr (Or.inr ?_)
        exact he ▸ List.mem_map.mpr ⟨x, hx, rfl⟩)
    · intro hmem
      have hxs : x.spdx_id ∈ doc.packages.map Package.spdx_id := by simpa using hmem
      refine hdisj1 (List.mem_append.mpr (Or.inl hxs)) ?_
      exact List.mem_map.mpr ⟨x, hx, rfl⟩
    · intro hmem
      have hxs : x.spdx_id ∈ doc.files.map File.spdx_id := by simpa using hmem
      refine hdisj1 (List.mem_append.mpr (Or.inr hxs)) ?_
      exact List.mem_map.mpr ⟨x, hx, rfl⟩


/-- C6 (amended): node statements are emitted in element order — when no cap
is applied (or it does not truncate), that order is document first, then
packages, files, snippets in source order; but when a package cap actually
truncates, the retained first-`N` packages are re-inserted after the files and
snippets, so the emission order becomes document, files, snippets, packages. -/
theorem C6_node_emission_order (doc : Document) (compact exclude_external_refs : Bool)
    (max_packages : Option Nat)
    (hnd : ("SPDXRef-DOCUMENT" :: (doc.packages.map Package.spdx_id
      ++ doc.files.map File.spdx_id ++ doc.snippets.map Snippet.spdx_id)).Nodup) :
    mermaidLines doc compact max_packages exclude_external_refs
      = "graph LR" :: ((capPackages max_packages (extract_elements_from_document doc)).flatMap
            (fun p => nodeStatementLines p.1 p.2 compact exclude_external_refs)
          ++ (doc.relationships.map edgeLine ++ legendLines)) ∧
    (extract_elements_from_document doc).map Prod.fst
      = "SPDXRef-DOCUMENT" :: (doc.packages.map Package.spdx_id
          ++ doc.files.map File.spdx_id ++ doc.snippets.map Snippet.spdx_id) ∧
    capPackages Option.none (extract_elements_from_document doc)
      = extract_elements_from_document doc ∧
    (∀ N, N < doc.packages.length →
      (capPackages (some N) (extract_elements_from_document doc)).map Prod.fst
        = "SPDXRef-DOCUMENT" :: (doc.files.map File.spdx_id
            ++ doc.snippets.map Snippet.spdx_id
            ++ (doc.packages.map Package.spdx_id).take N)) := by
  have hx := extract_eq_append doc hnd
  obtain ⟨hdoc, hrest⟩ := List.nodup_cons.mp hnd
  obtain ⟨hpf, hsn, hdisj1⟩ := List.nodup_append.mp hrest
  obtain ⟨hpk, hfl, hdisj2⟩ := List.nodup_append.mp hpf
  have hids : (extract_elements_from_document doc).map Prod.fst
      = "SPDXRef-DOCUMENT" :: (doc.packages.map Package.spdx_id
          ++ doc.files.map File.spdx_id ++ doc.snippets.map Snippet.spdx_id) := by
    rw [hx]
    simp only [List.map_cons, List.map_append, List.map_map]
    rfl
  refine ⟨?_, hids, rfl, ?_⟩
  · rw [mermaidLines]
    simp [List.append_assoc]
  · intro N hN
    have hfpkg : (extract_elements_from_document doc).filter isPackageEntry
        = doc.packages.map (fun p => (p.spdx_id, packageData p)) := by
      rw [hx, List.filter_cons_of_neg (by simp [isPackageEntry_document]),
        List.filter_append, List.filter_append]
      rw [List.filter_eq_self.mpr ?pk, List.filter_eq_nil_iff.mpr ?fl,
        List.filter_eq_nil_iff.mpr ?sn]
      · simp
      case pk =>
        intro q hq
        obtain ⟨x, _, rfl⟩ := List.mem_map.mp hq
        exact isPackageEntry_package _ _
      case fl =>
        intro q hq
        obtain ⟨x, _, rfl⟩ := List.mem_map.mp hq
        simp [isPackageEntry_file]
      case sn =>
        intro q hq
        obtain ⟨x, _, rfl⟩ := List.mem_map.mp hq
        simp [isPackageEntry_snippet]
    have hfnon : (extract_elements_from_document doc).filter (fun p => !isPackageEntry p)
        = ("SPDXRef-DOCUMENT", documentData doc.creation_info)
          :: (doc.files.map (fun f => (f.spdx_id, fileData f))
            ++ doc.snippets.map (fun s => (s.spdx_id, snippetData s))) := by
      rw [hx, List.filter_cons_of_pos (by simp [isPackageEntry_document]),
        List.filter_append, List.filter_append]
      rw [List.filter_eq_nil_iff.mpr ?pk2, List.filter_eq_self.mpr ?fl2,
        List.filter_eq_self.mpr ?sn2]
      · simp
      case pk2 =>
        intro q hq
        obtain ⟨x, _, rfl⟩ := List.mem_map.mp hq
        simp [isPackageEntry_package]
      case fl2 =>
        intro q hq
        obtain ⟨x, _, rfl⟩ := List.mem_map.mp hq
        simp [isPackageEntry_file]
      case sn2 =>
        intro q hq
        obtain ⟨x, _, rfl⟩ := List.mem_map.mp hq
        simp [isPackageEntry_snippet]
    have hlen : ((extract_elements_from_document doc).filter isPackageEntry).length
        = doc.packages.length := by
      rw [hfpkg, List.length_map]
    have hcap : capPackages (some N) (extract_elements_from_document doc)
        = (extract_elements_from_document doc).filter (fun p => !isPackageEntry p)
          ++ ((extract_elements_from_document doc).filter isPackageEntry).take N := by
      simp only [capPackages]
      rw [if_pos (by rw [hlen]; exact hN)]
      apply dictUpdate_append
      · intro q hq
        rw [hfnon, hfpkg] at *
        intro hmem
        have hq1 : q ∈ doc.packages.map (fun p => (p.spdx_id, packageData p)) := by
          exact List.mem_of_mem_take (by rw [← hfpkg]; exact (hfpkg ▸ hq))
        obtain ⟨x, hxmem, rfl⟩ := List.mem_map.mp hq1
        simp only [List.map_cons, List.map_append, List.map_map, List.mem_cons,
          List.mem_append] at hmem
        rcases hmem with h | h | h
        · exact hdoc (by
            refine List.mem_append.mpr (Or.inl (List.mem_append.mpr (Or.inl ?_)))
            exact h ▸ List.mem_map.mpr ⟨x, hxmem, rfl⟩)
        · have : x.spdx_id ∈ doc.files.map File.spdx_id := by simpa using h
          exact hdisj2 (List.mem_map.mpr ⟨x, hxmem, rfl⟩) this
        · have : x.spdx_id ∈ doc.snippets.map Snippet.spdx_id := by simpa using h
          exact hdisj1 (List.mem_append.mpr
            (Or.inl (List.mem_map.mpr ⟨x, hxmem, rfl⟩))) this
      · have hsub : List.Sublist
            (((extract_elements_from_document doc).filter isPackageEntry).take N)
            (extract_elements_from_document doc) :=
          (List.take_sublist _ _).trans (List.filter_sublist _)
        have hndE : ((extract_elements_from_document doc).map Prod.fst).Nodup := by
          rw [hids]
          exact hnd
        exact hndE.sublist (hsub.map Prod.fst)
    rw [hcap, hfnon, hfpkg]
    simp only [List.cons_append, List.map_cons, List.map_append, List.map_map,
      List.map_take]
    rfl


/-- Closed instance of C6 (amended) at a concrete document. -/
theorem C6_node_emission_order_witness :
    capPackages Option.none (extract_elements_from_document exDocCap)
      = extract_elements_from_document exDocCap :=
  (C6_node_emission_order exDocCap false false Option.none (by decide)).2.2.1

/-- C6 counterexample: capping `exDocCap` (two packages, one file) to one
package emits the file before the retained package, so the claimed
document-packages-files-snippets order does not survive capping. -/
theorem C6_capping_reorders_nodes :
    (capPackages (some 1) (extract_elements_from_document exDocCap)).map Prod.fst
      = ["SPDXRef-DOCUMENT", "SPDXRef-File1", "SPDXRef-Pkg1"] ∧
    (capPackages (some 1) (extract_elements_from_document exDocCap)).map Prod.fst
      ≠ ["SPDXRef-DOCUMENT", "SPDXRef-Pkg1", "SPDXRef-File1"] := by
  decide


/-! ### Truncation (claim C3) -/

theorem trunc60_eq (x : String) :
    (if x.length > 60 then x.take 57 ++ "..." else x) = truncateTo 60 x := by
  rw [truncateTo]

theorem trunc50_eq (x : String) :
    (if x.length > 50 then x.take 47 ++ "..." else x) = truncateTo 50 x := by
  rw [truncateTo]

theorem trunc40_eq (x : String) :
    (if x.length > 40 then x.take 37 ++ "..." else x) = truncateTo 40 x := by
  rw [truncateTo]

theorem summaryLines_of_truthy (d : ElementData) (h : hasTruthy d "summary" = true) :
    summaryLines d = ["Summary: " ++ truncateTo 60 (escape_quotes (valOf d "summary").pyStr)] := by
  rw [summaryLines, if_pos h]
  simp only [trunc60_eq]

theorem licenseNoteLines_of_truthy (d : ElementData)
    (h : hasTruthy d "licenseComments" = true) :
    licenseNoteLines d
      = ["License Note: " ++ truncateTo 60 (escape_quotes (valOf d "licenseComments").pyStr)] := by
  rw [licenseNoteLines, if_pos h]
  simp only [trunc60_eq]

theorem copyrightLines_of_truthy (d : ElementData)
    (h : hasTruthy d "copyrightText" = true) :
    copyrightLines d
      = ["Copyright: " ++ truncateTo 40 (escape_quotes (valOf d "copyrightText").pyStr)] := by
  rw [copyrightLines, if_pos h]
  simp only [trunc40_eq]

theorem commentLines_of_truthy (d : ElementData) (h : hasTruthy d "comment" = true) :
    commentLines d
      = ["Comment: " ++ truncateTo 50 (escape_quotes (valOf d "comment").pyStr)] := by
  rw [commentLines, if_pos h]
  simp only [trunc50_eq]

theorem mem_formatNodeLines_of_mem_optional (x : String) (id et : String)
    (d : ElementData) (ex : Bool) (h : x ∈ optionalLines d) :
    x ∈ formatNodeLines id d et false ex := by
  rw [formatNodeLines]
  simp only [List.mem_append, Bool.false_eq_true, if_false]
  tauto

/-- C3 counterexample: a checksum value of length three — at most any of the
field limits — is rendered with three dots appended rather than verbatim, so
the uniform truncation rule does not cover the checksum value rendering. -/
theorem C3_checksum_dots_counterexample :
    formatNodeLines "f" exDictC3 "File" false false = ["[File]", "ID: f", "SHA1: abc..."] ∧
    ("abc" : String).length ≤ 12 ∧
    ("SHA1: abc..." : String) ≠ "SHA1: abc" := by
  decide

/-- C3 (amended): the uniform rule — over limit `L`, keep the first `L - 3`
characters and append three dots for a result of length exactly `L`; at or
under `L`, render verbatim — holds for the summary (60), license note (60),
copyright (40) and comment (50) fields, whose rendered lines carry exactly
`truncateTo L` of the quote-escaped value.  The checksum value is the
exception: its rendering always keeps the first 12 characters and appends
three dots, regardless of length. -/
theorem C3_uniform_truncation :
    (∀ (L : Nat) (s : String), 3 ≤ L → L < s.length →
      truncateTo L s = s.take (L - 3) ++ "..." ∧ (truncateTo L s).length = L) ∧
    (∀ (L : Nat) (s : String), s.length ≤ L → truncateTo L s = s) ∧
    (∀ (d : ElementData) (id et : String) (ex : Bool), hasTruthy d "summary" = true →
      ("Summary: " ++ truncateTo 60 (escape_quotes (valOf d "summary").pyStr))
        ∈ formatNodeLines id d et false ex) ∧
    (∀ (d : ElementData) (id et : String) (ex : Bool),
      hasTruthy d "licenseComments" = true →
      ("License Note: " ++ truncateTo 60 (escape_quotes (valOf d "licenseComments").pyStr))
        ∈ formatNodeLines id d et false ex) ∧
    (∀ (d : ElementData) (id et : String) (ex : Bool),
      hasTruthy d "copyrightText" = true →
      ("Copyright: " ++ truncateTo 40 (escape_quotes (valOf d "copyrightText").pyStr))
        ∈ formatNodeLines id d et false ex) ∧
    (∀ (d : ElementData) (id et : String) (ex : Bool), hasTruthy d "comment" = true →
      ("Comment: " ++ truncateTo 50 (escape_quotes (valOf d "comment").pyStr))
        ∈ formatNodeLines id d et false ex) ∧
    (∀ (d : ElementData) (id et : String) (ex : Bool) (ck : List (String × String))
        (cs : List (List (String × String))),
      valOf d "checksums" = Value.dictList (ck :: cs) →
      (sget ck "algorithm" ++ ": " ++ (sget ck "checksumValue").take 12 ++ "...")
        ∈ formatNodeLines id d et false ex) := by
  refine ⟨?_, ?_, ?_, ?_, ?_, ?_, ?_⟩
  · intro L s hL hlen
    rw [truncateTo, if_pos hlen]
    refine ⟨rfl, ?_⟩
    rw [String.length_append]
    have htake : (s.take (L - 3)).length = L - 3 := by
      have h1 : (s.take (L - 3)).length = min (L - 3) s.length := by
        show (s.take (L - 3)).data.length = _
        rw [String.data_take]
        exact List.length_take _ _
      rw [h1]
      exact Nat.min_eq_left (Nat.le_of_lt (Nat.lt_of_le_of_lt (Nat.sub_le L 3) hlen))
    rw [htake]
    have : ("..." : String).length = 3 := rfl
    rw [this]
    omega
  · intro L s h
    rw [truncateTo, if_neg (by omega)]
  · intro d id et ex h
    rw [formatNodeLines, summaryLines_of_truthy d h]
    simp
  · intro d id et ex h
    rw [formatNodeLines, licenseNoteLines_of_truthy d h]
    simp
  · intro d id et ex h
    apply mem_formatNodeLines_of_mem_optional
    rw [optionalLines, copyrightLines_of_truthy d h]
    simp
  · intro d id et ex h
    apply mem_formatNodeLines_of_mem_optional
    rw [optionalLines, commentLines_of_truthy d h]
    simp
  · intro d id et ex ck cs hval
    have hdget : dget d "checksums" = some (Value.dictList (ck :: cs)) := by
      rw [valOf] at hval
      cases hd : dget d "checksums" with
      | none => rw [hd] at hval; simp [Option.getD] at hval
      | some v => rw [hd] at hval; simp [Option.getD] at hval; rw [hval]
    have htr : hasTruthy d "checksums" = true := by
      rw [hasTruthy, hdget]
      simp [Value.truthy]
    apply mem_formatNodeLines_of_mem_optional
    rw [optionalLines]
    have hck : (sget ck "algorithm" ++ ": " ++ (sget ck "checksumValue").take 12 ++ "...")
        ∈ checksumLines d := by
      rw [checksumLines, if_pos htr, hval]
      refine List.mem_map.mpr ⟨ck, ?_, rfl⟩
      simp [List.take_succ_cons]
    simp only [List.mem_append]
    tauto


/-! ### Quote escaping (claim C4) -/

theorem pyReplaceAux_single_map (d c' : Char) :
    ∀ (fuel : Nat) (l : List Char), l.length ≤ fuel →
      pyReplaceAux [d] [c'] fuel l = l.map (fun c => if c = d then c' else c) := by
  intro fuel
  induction fuel with
  | zero =>
    intro l hl
    rw [Nat.le_zero, List.length_eq_zero] at hl
    subst hl
    rfl
  | succ n ih =>
    intro l hl
    cases l with
    | nil => rfl
    | cons a as =>
      have has : as.length ≤ n := by simpa using hl
      by_cases ha : a = d
      · subst ha
        have hp : [a].isPrefixOf (a :: as) = true := by simp [List.isPrefixOf]
        rw [pyReplaceAux, if_pos hp]
        rw [show List.drop [a].length (a :: as) = as from rfl]
        rw [ih as has]
        simp
      · have hp : ¬ [d].isPrefixOf (a :: as) = true := by
          simp [List.isPrefixOf]
          intro h
          exact absurd h.symm ha
        rw [pyReplaceAux, if_neg hp, ih as has]
        simp [ha]

/-- `escape_quotes` is the character map replacing `"` by `'` and changing
nothing else. -/
theorem escape_quotes_eq_map (s : String) :
    escape_quotes s = ⟨s.data.map (fun c => if c = '"' then '\'' else c)⟩ := by
  rw [escape_quotes, pyReplace, if_neg (by decide)]
  apply String.ext_iff.mpr
  exact pyReplaceAux_single_map '"' '\'' s.data.length s.data (Nat.le_refl _)

theorem escape_quotes_no_quote (s : String) : '"' ∉ (escape_quotes s).data := by
  rw [escape_quotes_eq_map]
  intro h
  obtain ⟨c0, _, he⟩ := List.mem_map.mp h
  by_cases hc : c0 = '"'
  · rw [if_pos hc] at he
    exact absurd he (by decide)
  · rw [if_neg hc] at he
    exact hc he

theorem escape_quotes_length (s : String) : (escape_quotes s).length = s.length := by
  rw [escape_quotes_eq_map]
  show (s.data.map _).length = _
  rw [List.length_map]
  rfl

theorem no_quote_append (a b : String) (ha : '"' ∉ a.data) (hb : '"' ∉ b.data) :
    '"' ∉ (a ++ b).data := by
  rw [String.data_append]
  intro h
  rcases List.mem_append.mp h with h' | h'
  · exact ha h'
  · exact hb h'

theorem no_quote_take (s : String) (n : Nat) (h : '"' ∉ s.data) :
    '"' ∉ (s.take n).data := by
  rw [String.data_take]
  intro hmem
  exact h (List.mem_of_mem_take hmem)

theorem no_quote_truncIf (y : String) (n m : Nat) (h : '"' ∉ y.data) :
    '"' ∉ (if y.length > n then y.take m ++ "..." else y).data := by
  split
  · exact no_quote_append _ _ (no_quote_take _ _ h) (by decide)
  · exact h

theorem mem_of_mem_ifList (x : String) (b : Bool) (A : List String)
    (h : x ∈ (if b = true then A else [])) : x ∈ A := by
  split at h
  · exact h
  · simp at h

theorem mem_of_mem_ifProp (x : String) (P : Prop) [Decidable P] (A : List String)
    (h : x ∈ (if P then A else [])) : x ∈ A := by
  split at h
  · exact h
  · simp at h

/-- Characters of `String.intercalate.go` come from the accumulator, the
separator, or one of the strings. -/
theorem mem_intercalate_go (sep : String) (c : Char) :
    ∀ (L : List String) (acc : String), c ∈ (String.intercalate.go acc sep L).data →
      c ∈ acc.data ∨ c ∈ sep.data ∨ ∃ l ∈ L, c ∈ l.data := by
  intro L
  induction L with
  | nil =>
    intro acc h
    rw [String.intercalate.go] at h
    exact Or.inl h
  | cons a as ih =>
    intro acc h
    rw [String.intercalate.go] at h
    rcases ih (acc ++ sep ++ a) h with h' | h' | ⟨l, hl, hcl⟩
    · rw [String.data_append, String.data_append] at h'
      rcases List.mem_append.mp h' with h'' | h''
      · rcases List.mem_append.mp h'' with h3 | h3
        · exact Or.inl h3
        · exact Or.inr (Or.inl h3)
      · exact Or.inr (Or.inr ⟨a, List.mem_cons_self _ _, h''⟩)
    · exact Or.inr (Or.inl h')
    · exact Or.inr (Or.inr ⟨l, List.mem_cons_of_mem _ hl, hcl⟩)

theorem mem_intercalate_data (sep : String) (L : List String) (c : Char)
    (h : c ∈ (String.intercalate sep L).data) :
    c ∈ sep.data ∨ ∃ l ∈ L, c ∈ l.data := by
  cases L with
  | nil =>
    rw [String.intercalate] at h
    simp at h
  | cons a as =>
    rw [String.intercalate] at h
    rcases mem_intercalate_go sep c as a h with h' | h' | ⟨l, hl, hcl⟩
    · exact Or.inr ⟨a, List.mem_cons_self _ _, h'⟩
    · exact Or.inl h'
    · exact Or.inr ⟨l, List.mem_cons_of_mem _ hl, hcl⟩


theorem no_quote_headerLine (et : String) (d : ElementData)
    (het : '"' ∉ et.data)
    (hpurp : '"' ∉ ((valOf d "primaryPackagePurpose").pyStr).data) :
    '"' ∉ (headerLine et d).data := by
  rw [headerLine]
  split
  · exact no_quote_append _ _ (no_quote_append _ _ (no_quote_append _ _
      (no_quote_append _ _ (by decide) het) (by decide)) hpurp) (by decide)
  · exact no_quote_append _ _ (no_quote_append _ _ (by decide) het) (by decide)

theorem no_quote_nameLine (element_id : String) (d : ElementData) :
    '"' ∉ (nameLine element_id d).data := by
  rw [nameLine]
  split
  · exact no_quote_append _ _ (by decide) (escape_quotes_no_quote _)
  · exact no_quote_append _ _ (by decide) (escape_quotes_no_quote _)

theorem no_quote_summaryLines (d : ElementData) :
    ∀ x ∈ summaryLines d, '"' ∉ x.data := by
  intro x hx
  rw [summaryLines] at hx
  split at hx
  · simp only [List.mem_singleton] at hx
    subst hx
    exact no_quote_append _ _ (by decide)
      (no_quote_truncIf _ _ _ (escape_quotes_no_quote _))
  · simp at hx

theorem no_quote_prefix_esc (pre y : String) (hpre : '"' ∉ pre.data) :
    '"' ∉ (pre ++ escape_quotes y).data :=
  no_quote_append _ _ hpre (escape_quotes_no_quote _)

theorem no_quote_versionLines (d : ElementData) :
    ∀ x ∈ versionLines d, '"' ∉ x.data := by
  intro x hx
  rw [versionLines] at hx
  split at hx
  · simp only [List.mem_singleton] at hx
    subst hx
    exact no_quote_prefix_esc _ _ (by decide)
  · simp at hx

theorem no_quote_licenseLines (d : ElementData) :
    ∀ x ∈ licenseLines d, '"' ∉ x.data := by
  intro x hx
  rw [licenseLines] at hx
  split at hx
  · simp only [List.mem_singleton] at hx
    subst hx
    exact no_quote_prefix_esc _ _ (by decide)
  · simp at hx

theorem no_quote_licenseNoteLines (d : ElementData) :
    ∀ x ∈ licenseNoteLines d, '"' ∉ x.data := by
  intro x hx
  rw [licenseNoteLines] at hx
  split at hx
  · simp only [List.mem_singleton] at hx
    subst hx
    exact no_quote_append _ _ (by decide)
      (no_quote_truncIf _ _ _ (escape_quotes_no_quote _))
  · simp at hx

theorem no_quote_downloadLines (d : ElementData) :
    ∀ x ∈ downloadLines d, '"' ∉ x.data := by
  intro x hx
  rw [downloadLines] at hx
  split at hx
  · simp only [List.mem_singleton] at hx
    subst hx
    exact no_quote_append _ _ (by decide)
      (no_quote_truncIf _ _ _ (escape_quotes_no_quote _))
  · simp at hx

theorem no_quote_supplierLines (d : ElementData) :
    ∀ x ∈ supplierLines d, '"' ∉ x.data := by
  intro x hx
  rw [supplierLines] at hx
  split at hx
  · simp only [List.mem_singleton] at hx
    subst hx
    exact no_quote_prefix_esc _ _ (by decide)
  · simp at hx

theorem no_quote_originatorLines (d : ElementData) :
    ∀ x ∈ originatorLines d, '"' ∉ x.data := by
  intro x hx
  rw [originatorLines] at hx
  split at hx
  · simp only [List.mem_singleton] at hx
    subst hx
    exact no_quote_prefix_esc _ _ (by decide)
  · simp at hx

theorem no_quote_filesAnalyzedLines (d : ElementData)
    (hfa : '"' ∉ ((valOf d "filesAnalyzed").pyStr).data) :
    ∀ x ∈ filesAnalyzedLines d, '"' ∉ x.data := by
  intro x hx
  rw [filesAnalyzedLines] at hx
  split at hx
  · simp only [List.mem_singleton] at hx
    subst hx
    exact no_quote_append _ _ (by decide) hfa
  · simp at hx

theorem no_quote_verificationLines (d : ElementData)
    (hv : '"' ∉ ((valOf d "verificationCode").pyStr).data) :
    ∀ x ∈ verificationLines d, '"' ∉ x.data := by
  intro x hx
  rw [verificationLines] at hx
  split at hx
  · simp only [List.mem_singleton] at hx
    subst hx
    exact no_quote_append _ _ (by decide) hv
  · simp at hx

theorem no_quote_checksumLines (d : ElementData)
    (hck : ∀ ck ∈ (match valOf d "checksums" with
        | Value.dictList l => l
        | _ => []),
      '"' ∉ (sget ck "algorithm").data ∧ '"' ∉ (sget ck "checksumValue").data) :
    ∀ x ∈ checksumLines d, '"' ∉ x.data := by
  intro x hx
  rw [checksumLines] at hx
  split at hx
  · cases hv : valOf d "checksums" with
    | dictList cs =>
      rw [hv] at hx hck
      obtain ⟨ck, hmem, rfl⟩ := List.mem_map.mp hx
      have h2 := hck ck (List.mem_of_mem_take hmem)
      exact no_quote_append _ _ (no_quote_append _ _
        (no_quote_append _ _ h2.1 (by decide)) (no_quote_take _ _ h2.2)) (by decide)
    | str s => rw [hv] at hx; simp at hx
    | bool b => rw [hv] at hx; simp at hx
    | none => rw [hv] at hx; simp at hx
    | strList l => rw [hv] at hx; simp at hx
  · simp at hx

theorem no_quote_copyrightLines (d : ElementData) :
    ∀ x ∈ copyrightLines d, '"' ∉ x.data := by
  intro x hx
  rw [copyrightLines] at hx
  split at hx
  · simp only [List.mem_singleton] at hx
    subst hx
    exact no_quote_append _ _ (by decide)
      (no_quote_truncIf _ _ _ (escape_quotes_no_quote _))
  · simp at hx

theorem no_quote_commentLines (d : ElementData) :
    ∀ x ∈ commentLines d, '"' ∉ x.data := by
  intro x hx
  rw [commentLines] at hx
  split at hx
  · simp only [List.mem_singleton] at hx
    subst hx
    exact no_quote_append _ _ (by decide)
      (no_quote_truncIf _ _ _ (escape_quotes_no_quote _))
  · simp at hx

theorem no_quote_homepageLines (d : ElementData) :
    ∀ x ∈ homepageLines d, '"' ∉ x.data := by
  intro x hx
  rw [homepageLines] at hx
  split at hx
  · simp only [List.mem_singleton] at hx
    subst hx
    exact no_quote_prefix_esc _ _ (by decide)
  · simp at hx

theorem no_quote_optionalLines (d : ElementData)
    (hfa : '"' ∉ ((valOf d "filesAnalyzed").pyStr).data)
    (hv : '"' ∉ ((valOf d "verificationCode").pyStr).data)
    (hck : ∀ ck ∈ (match valOf d "checksums" with
        | Value.dictList l => l
        | _ => []),
      '"' ∉ (sget ck "algorithm").data ∧ '"' ∉ (sget ck "checksumValue").data) :
    ∀ x ∈ optionalLines d, '"' ∉ x.data := by
  intro x hx
  rw [optionalLines] at hx
  simp only [List.mem_append] at hx
  rcases hx with ((((((((hx | hx) | hx) | hx) | hx) | hx) | hx) | hx) | hx)
  · exact no_quote_downloadLines d x hx
  · exact no_quote_supplierLines d x hx
  · exact no_quote_originatorLines d x hx
  · exact no_quote_filesAnalyzedLines d hfa x hx
  · exact no_quote_verificationLines d hv x hx
  · exact no_quote_checksumLines d hck x hx
  · exact no_quote_copyrightLines d x hx
  · exact no_quote_commentLines d x hx
  · exact no_quote_homepageLines d x hx

theorem no_quote_documentLines (d : ElementData) :
    ∀ x ∈ documentLines d, '"' ∉ x.data := by
  intro x hx
  rw [documentLines] at hx
  simp only [List.mem_append] at hx
  rcases hx with ((hx | hx) | hx) | hx
  · split at hx
    · simp only [List.mem_singleton] at hx
      subst hx
      exact no_quote_prefix_esc _ _ (by decide)
    · simp at hx
  · split at hx
    · simp only [List.mem_singleton] at hx
      subst hx
      exact no_quote_prefix_esc _ _ (by decide)
    · simp at hx
  · split at hx
    · simp only [List.mem_singleton] at hx
      subst hx
      exact no_quote_append _ _ (by decide)
        (no_quote_truncIf _ _ _ (escape_quotes_no_quote _))
    · simp at hx
  · split at hx
    · simp only [List.mem_singleton] at hx
      subst hx
      exact no_quote_prefix_esc _ _ (by decide)
    · simp at hx

theorem no_quote_packageOnlyLines (d : ElementData) (compact ex : Bool)
    (href : ∀ r ∈ (match valOf d "externalRefs" with
        | Value.dictList l => l
        | _ => []),
      '"' ∉ (sget r "referenceType").data) :
    ∀ x ∈ packageOnlyLines d compact ex, '"' ∉ x.data := by
  intro x hx
  rw [packageOnlyLines] at hx
  simp only [List.mem_append] at hx
  rcases hx with (hx | hx) | hx
  · split at hx
    · simp only [List.mem_singleton] at hx
      subst hx
      exact no_quote_prefix_esc _ _ (by decide)
    · simp at hx
  · split at hx
    · simp only [List.mem_singleton] at hx
      subst hx
      exact no_quote_append _ _ (by decide)
        (no_quote_truncIf _ _ _ (escape_quotes_no_quote _))
    · simp at hx
  · split at hx
    · cases hv : valOf d "externalRefs" with
      | dictList refs =>
        rw [hv] at hx href
        obtain ⟨r, hmem, rfl⟩ := List.mem_map.mp hx
        have h2 := href r (List.mem_of_mem_take hmem)
        exact no_quote_append _ _ (no_quote_append _ _ h2 (by decide))
          (escape_quotes_no_quote _)
      | str s => rw [hv] at hx; simp at hx
      | bool b => rw [hv] at hx; simp at hx
      | none => rw [hv] at hx; simp at hx
      | strList l => rw [hv] at hx; simp at hx
    · simp at hx

theorem no_quote_formatNodeLines (element_id et : String) (d : ElementData)
    (compact ex : Bool)
    (het : '"' ∉ et.data)
    (hpurp : '"' ∉ ((valOf d "primaryPackagePurpose").pyStr).data)
    (hfa : '"' ∉ ((valOf d "filesAnalyzed").pyStr).data)
    (hv : '"' ∉ ((valOf d "verificationCode").pyStr).data)
    (hck : ∀ ck ∈ (match valOf d "checksums" with
        | Value.dictList l => l
        | _ => []),
      '"' ∉ (sget ck "algorithm").data ∧ '"' ∉ (sget ck "checksumValue").data)
    (href : ∀ r ∈ (match valOf d "externalRefs" with
        | Value.dictList l => l
        | _ => []),
      '"' ∉ (sget r "referenceType").data) :
    ∀ x ∈ formatNodeLines element_id d et compact ex, '"' ∉ x.data := by
  intro x hx
  rw [formatNodeLines] at hx
  simp only [List.mem_append] at hx
  rcases hx with ((((((hx | hx) | hx) | hx) | hx) | hx) | hx) | hx
  · rcases List.mem_cons.mp hx with hx | hx
    · subst hx
      exact no_quote_headerLine et d het hpurp
    · simp only [List.mem_singleton] at hx
      subst hx
      exact no_quote_nameLine element_id d
  · exact no_quote_summaryLines d x hx
  · exact no_quote_versionLines d x hx
  · exact no_quote_licenseLines d x hx
  · exact no_quote_licenseNoteLines d x hx
  · split at hx
    · simp at hx
    · exact no_quote_optionalLines d hfa hv hck x hx
  · exact no_quote_documentLines d x (mem_of_mem_ifList x _ _ hx)
  · exact no_quote_packageOnlyLines d compact ex href x (mem_of_mem_ifProp x _ _ hx)


/-- C4 counterexample: a double quote inside the package-purpose value passes
into the label unescaped, because the type-header line interpolates the
purpose without `escape_quotes`. -/
theorem C4_purpose_quote_counterexample :
    format_node_label "id" exDictC4 "Package" false false
      = "[Package - HAS\"QUOTE]\nID: id" ∧
    '"' ∈ (format_node_label "id" exDictC4 "Package" false false).data := by
  decide

/-- C4 (amended): `escape_quotes` is total, replaces every `"` with `'` and
changes nothing else (it is the character map, produces no quote, and
preserves length); and the formatted label contains no `"` provided the
values that the formatter embeds *without* escaping — the element type, the
package purpose in the type header, the files-analyzed value, the
verification code, the checksum algorithm/value fields and the
external-reference type — are themselves quote-free.  Every other value is
passed through `escape_quotes` and can never contribute a quote. -/
theorem C4_quote_escaping :
    (∀ s : String,
      escape_quotes s = ⟨s.data.map (fun c => if c = '"' then '\'' else c)⟩ ∧
      '"' ∉ (escape_quotes s).data ∧
      (escape_quotes s).length = s.length) ∧
    (∀ (element_id et : String) (d : ElementData) (compact ex : Bool),
      '"' ∉ et.data →
      '"' ∉ ((valOf d "primaryPackagePurpose").pyStr).data →
      '"' ∉ ((valOf d "filesAnalyzed").pyStr).data →
      '"' ∉ ((valOf d "verificationCode").pyStr).data →
      (∀ ck ∈ (match valOf d "checksums" with
          | Value.dictList l => l
          | _ => []),
        '"' ∉ (sget ck "algorithm").data ∧ '"' ∉ (sget ck "checksumValue").data) →
      (∀ r ∈ (match valOf d "externalRefs" with
          | Value.dictList l => l
          | _ => []),
        '"' ∉ (sget r "referenceType").data) →
      '"' ∉ (format_node_label element_id d et compact ex).data) := by
  constructor
  · intro s
    exact ⟨escape_quotes_eq_map s, escape_quotes_no_quote s, escape_quotes_length s⟩
  · intro element_id et d compact ex het hpurp hfa hv hck href hmem
    rw [format_node_label] at hmem
    rcases mem_intercalate_data "\n" _ '"' hmem with h | ⟨l, hl, hcl⟩
    · revert h
      decide
    · exact no_quote_formatNodeLines element_id et d compact ex het hpurp hfa hv hck
        href l hl hcl


/-! ### Optional fields, null placeholders, filesAnalyzed (claim C9) -/

theorem dget_packageData_version (p : Package) :
    dget (packageData p) "version" = some (optStrVal p.version) := rfl

theorem dget_packageData_filesAnalyzed (p : Package) :
    dget (packageData p) "filesAnalyzed" = some (Value.bool p.files_analyzed) := rfl

theorem hasTruthy_of_dget (d : ElementData) (k : String) (v : Value)
    (h : dget d k = some v) : hasTruthy d k = v.truthy := by
  rw [hasTruthy, h]

/-- C9 counterexample: a package without a version still gets a `"version"`
key — mapped to an explicit null, not absent — and the falsy value
`filesAnalyzed = False` still renders a label line, unlike every other
falsy-valued field. -/
theorem C9_null_placeholder_counterexample :
    exPkgNoVer.version = Option.none ∧
    dget (packageData exPkgNoVer) "version" = some Value.none ∧
    ("Files Analyzed: False"
      ∈ formatNodeLines "SPDXRef-Pkg3" (packageData exPkgNoVer) "Package" false false) ∧
    exPkgNoVer.files_analyzed = false := by
  decide

/-- C9 (amended): extraction always emits the full fixed key set for a
package — an absent or empty source attribute is stored as an explicit null
(`None`), not omitted; the formatter suppresses a field's line exactly when
the stored value is falsy (shown for the representative `version` field),
except `filesAnalyzed`, whose line is rendered from key presence alone and
therefore appears for every package, even with value `False`. -/
theorem C9_absent_fields :
    (∀ p : Package, (packageData p).map Prod.fst
      = ["type", "name", "version", "downloadLocation", "filesAnalyzed", "supplier",
         "originator", "homepage", "licenseConcluded", "licenseDeclared",
         "licenseComments", "copyrightText", "comment", "summary",
         "primaryPackagePurpose", "checksums", "verificationCode", "packageFileName",
         "externalRefs"]) ∧
    (∀ p : Package, p.version = Option.none ∨ p.version = some "" →
      dget (packageData p) "version" = some Value.none) ∧
    (∀ p : Package, versionLines (packageData p)
      = (match p.version with
         | some s => if s.isEmpty then [] else ["Version: " ++ escape_quotes s]
         | Option.none => [])) ∧
    (∀ p : Package, filesAnalyzedLines (packageData p)
      = ["Files Analyzed: " ++ (if p.files_analyzed then "True" else "False")]) ∧
    (∀ (p : Package) (element_id : String) (ex : Bool),
      ("Files Analyzed: " ++ (if p.files_analyzed then "True" else "False"))
        ∈ formatNodeLines element_id (packageData p) "Package" false ex) := by
  have hfa : ∀ p : Package, filesAnalyzedLines (packageData p)
      = ["Files Analyzed: " ++ (if p.files_analyzed then "True" else "False")] := by
    intro p
    rw [filesAnalyzedLines]
    rw [if_pos (by rw [hasKey, dget_packageData_filesAnalyzed]; rfl)]
    rw [valOf, dget_packageData_filesAnalyzed]
    cases p.files_analyzed <;> rfl
  refine ⟨fun p => rfl, ?_, ?_, hfa, ?_⟩
  · intro p h
    rw [dget_packageData_version p]
    rcases h with h | h <;> rw [h] <;> rfl
  · intro p
    rw [versionLines,
      hasTruthy_of_dget _ _ _ (dget_packageData_version p),
      valOf, dget_packageData_version p]
    cases hv : p.version with
    | none => rfl
    | some s =>
      by_cases hs : s.isEmpty
      · simp [optStrVal, hs, Value.truthy]
      · simp [optStrVal, hs, Value.truthy, Value.pyStr]
  · intro p element_id ex
    apply mem_formatNodeLines_of_mem_optional
    rw [optionalLines, hfa p]
    simp only [List.mem_append]
    tauto

/-! ### The hard-coded document identifier (claim C10) -/

theorem dictInsert_head_key (k : String) (v : ElementData)
    (d : List (String × ElementData)) (k0 : String)
    (h : (d.map Prod.fst).head? = some k0) :
    ((dictInsert k v d).map Prod.fst).head? = some k0 := by
  cases d with
  | nil => simp at h
  | cons a rest =>
    rw [dictInsert]
    split
    · simp only [List.map_cons, List.map_map, List.head?_cons] at h ⊢
      split
      · rename_i heq
        simp only [Option.some_inj] at h ⊢
        rw [← h, ← heq]
      · exact h
    · simp only [List.cons_append, List.map_cons, List.head?_cons] at h ⊢
      exact h

theorem foldl_dictInsert_head {α : Type} (key : α → String) (val : α → ElementData) :
    ∀ (xs : List α) (init : List (String × ElementData)) (k0 : String),
      (init.map Prod.fst).head? = some k0 →
      (((xs.foldl (fun es x => dictInsert (key x) (val x) es) init).map Prod.fst).head?
        = some k0) := by
  intro xs
  induction xs with
  | nil => intro init k0 h; exact h
  | cons x xs ih =>
    intro init k0 h
    rw [List.foldl_cons]
    exact ih _ k0 (dictInsert_head_key (key x) (val x) init k0 h)

/-- C10 counterexample: the identifier `DOCUMENT` differs from
`SPDXRef-DOCUMENT`, yet a relationship naming it produces an edge whose source
node id is exactly the emitted document node id — not a different one. -/
theorem C10_document_id_collision_counterexample :
    exRel10.spdx_element_id ≠ "SPDXRef-DOCUMENT" ∧
    sanitize_node_id exRel10.spdx_element_id = sanitize_node_id "SPDXRef-DOCUMENT" ∧
    edgeLine exRel10 = "    DOCUMENT -->|\"DESCRIBES\"| Pkg1" := by
  decide

/-- C10 (amended): extraction stores the document under the hard-coded key
`SPDXRef-DOCUMENT` — always the first entry — and never reads the document's
own identifier (changing it leaves extraction untouched); the emitted document
node id is `DOCUMENT`; and a relationship edge naming an identifier whose
*sanitized* form differs from `DOCUMENT` references a node id different from
the document node (identifiers such as `DOCUMENT` itself sanitize to the
document node id and collide with it). -/
theorem C10_document_node_hardcoded :
    (∀ doc : Document,
      ((extract_elements_from_document doc).map Prod.fst).head?
        = some "SPDXRef-DOCUMENT") ∧
    (∀ (doc : Document) (x : String),
      extract_elements_from_document
          { doc with creation_info := { doc.creation_info with spdx_id := x } }
        = extract_elements_from_document doc) ∧
    sanitize_node_id "SPDXRef-DOCUMENT" = "DOCUMENT" ∧
    (∀ r : Relationship, sanitize_node_id r.spdx_element_id ≠ "DOCUMENT" →
      sanitize_node_id r.spdx_element_id ≠ sanitize_node_id "SPDXRef-DOCUMENT") := by
  refine ⟨?_, fun doc x => rfl, by decide, ?_⟩
  · intro doc
    rw [extract_elements_from_document]
    apply foldl_dictInsert_head
    apply foldl_dictInsert_head
    apply foldl_dictInsert_head
    rfl
  · intro r h
    intro he
    apply h
    rw [he]
    decide

end SpdxToMermaid
